import Mathlib

/-
Verification of the rustycan4docker network driver core
(src/endpoint.rs, src/network.rs, src/manager.rs).

The kernel is modelled as an oracle: an optional enumeration of the
interface names currently present (`ifcs = none` models a failing
enumeration, mirroring `interfaces::Interface::get_all()` returning
`Err`), and a function `exec` giving, for each spawned command line,
either `none` (the process could not be spawned, which makes the Rust
side's `.expect(..)` panic or its `match .. Err(e)` arm fire) or the
`CmdResult` (exit code and captured stderr) of the finished process.
Functions that can panic in Rust (`.unwrap()`, `.expect(..)`) are
embedded as `Option`-returning functions, `none` being the panic.
Every function also returns the list of command lines it spawned, in
order, so that "issues no kernel command" claims can be stated.

Rust `HashMap`s are embedded as association lists: `listInsert`
replaces the binding in place on key collision (last writer wins,
like `HashMap::insert`) and returns the displaced value's effects to
the caller where the source drops it.
-/

/-- Result of a finished subprocess: exit code and captured stderr. -/
structure CmdResult where
  exitCode : Nat
  stderr : String
deriving DecidableEq

/-- The kernel oracle: interface enumeration and subprocess execution. -/
structure Kernel where
  ifcs : Option (List String)
  exec : List String → Option CmdResult

/-- Rust `Result` with an uninformative error (`std::fmt::Error`). -/
inductive RustResult (α : Type) where
  | ok (val : α)
  | err
deriving DecidableEq

/-- Substring test, modelling Rust `str::contains` on string patterns. -/
def strContains (hay needle : String) : Bool :=
  (List.range (hay.data.length + 1)).any fun i => needle.data.isPrefixOf (hay.data.drop i)

/-- Association-list lookup (models `HashMap::get`). -/
def listLookup {α : Type} : List (String × α) → String → Option α
  | [], _ => none
  | (k, v) :: rest, key => if k = key then some v else listLookup rest key

/-- Association-list insert (models `HashMap::insert`: replace on collision). -/
def listInsert {α : Type} : List (String × α) → String → α → List (String × α)
  | [], key, v => [(key, v)]
  | (k, w) :: rest, key, v =>
    if k = key then (key, v) :: rest else (k, w) :: listInsert rest key v

/-- Association-list removal of the (unique) binding for a key (models `HashMap::remove`). -/
def listErase {α : Type} : List (String × α) → String → List (String × α)
  | [], _ => []
  | (k, w) :: rest, key => if k = key then rest else (k, w) :: listErase rest key

/-- Remove the first occurrence of a pair from a list, by value equality;
models the `position`-then-`remove` idiom of `Network::remove_cangw_rule`. -/
def eraseFirstPair : List (String × String) → (String × String) → List (String × String)
  | [], _ => []
  | p :: rest, q => if p = q then rest else p :: eraseFirstPair rest q

/-- Greedy character-boundary byte truncation of a character list:
take characters while their cumulative UTF-8 size stays within the budget.
This is the semantics of `truncrate`'s `truncate_to_byte_offset`. -/
def truncChars : Nat → List Char → List Char
  | _, [] => []
  | n, c :: cs => if Char.utf8Size c ≤ n then c :: truncChars (n - Char.utf8Size c) cs else []

/-- `uid.truncate_to_byte_offset(n)` from the `truncrate` crate. -/
def truncateToByteOffset (s : String) (n : Nat) : String :=
  String.mk (truncChars n s.data)

/-- UTF-8 byte length of a character list. -/
def charsByteLen (l : List Char) : Nat :=
  l.foldr (fun c n => Char.utf8Size c + n) 0

/-- Command line `ip link add dev IFC type vcan`. -/
def vcanAddCmd (ifc : String) : List String :=
  ["ip", "link", "add", "dev", ifc, "type", "vcan"]

/-- Command line `ip link del dev IFC type vcan`. -/
def vcanDelCmd (ifc : String) : List String :=
  ["ip", "link", "del", "dev", ifc, "type", "vcan"]

/-- Command line `ip link add dev DEV type vxcan peer name PEER`. -/
def vxcanAddCmd (dev peer : String) : List String :=
  ["ip", "link", "add", "dev", dev, "type", "vxcan", "peer", "name", peer]

/-- Command line `ip link del dev DEV type vxcan`. -/
def vxcanDelCmd (dev : String) : List String :=
  ["ip", "link", "del", "dev", dev, "type", "vxcan"]

/-- Command line `ip link set up DEV`. -/
def linkUpCmd (dev : String) : List String :=
  ["ip", "link", "set", "up", dev]

/-- Command line `ip link set down DEV`. -/
def linkDownCmd (dev : String) : List String :=
  ["ip", "link", "set", "down", dev]

/-- Command line `cangw -A -s SRC -d DST -e` (or `-eX` for extended frames). -/
def cangwAddCmd (src dst : String) (ext : Bool) : List String :=
  ["cangw", "-A", "-s", src, "-d", dst, if ext then "-eX" else "-e"]

/-- Command line `cangw -D -s SRC -d DST -e` (or `-eX` for extended frames). -/
def cangwDelCmd (src dst : String) (ext : Bool) : List String :=
  ["cangw", "-D", "-s", src, "-d", dst, if ext then "-eX" else "-e"]

/-- Does the kernel currently enumerate an interface with this name?
Mirrors the `interface_exists` helpers: an enumeration error yields `false`. -/
def ifExists (k : Kernel) (dev : String) : Bool :=
  match k.ifcs with
  | some l => decide (dev ∈ l)
  | none => false

/-- The `Endpoint` struct of src/endpoint.rs. -/
structure Endpoint where
  uid : String
  device : String
  peer : String
  created : Bool
deriving DecidableEq

/-- `Endpoint::interface_exists`. -/
def Endpoint.interface_exists (k : Kernel) (e : Endpoint) : Bool :=
  ifExists k e.device

/-- `Endpoint::ensure_interface_exists` (src/endpoint.rs lines 58-118):
idempotent repair of the vxcan pair. Returns the `Result<bool, String>`
together with the updated endpoint and the commands spawned. -/
def Endpoint.ensure_interface_exists (k : Kernel) (e : Endpoint) :
    RustResult (Bool × Endpoint) × List (List String) :=
  if Endpoint.interface_exists k e then
    (RustResult.ok (false, e), [])
  else
    match k.exec (vxcanAddCmd e.device e.peer) with
    | none => (RustResult.err, [])
    | some r =>
      if r.exitCode ≠ 0 then
        if strContains r.stderr "File exists" then
          (RustResult.ok (false, e), [vxcanAddCmd e.device e.peer])
        else
          (RustResult.err, [vxcanAddCmd e.device e.peer])
      else
        match k.exec (linkUpCmd e.device) with
        | none => (RustResult.err, [vxcanAddCmd e.device e.peer])
        | some r2 =>
          if r2.exitCode ≠ 0 then
            (RustResult.err, [vxcanAddCmd e.device e.peer, linkUpCmd e.device])
          else
            (RustResult.ok (true, { e with created := true }),
             [vxcanAddCmd e.device e.peer, linkUpCmd e.device])

/-- `Endpoint::new` (src/endpoint.rs lines 120-165). Note that the source
uses `.output().expect(..)` on both commands: a non-zero exit status is
never inspected, only a spawn failure panics (`none` here); `created`
is `!exists` from the pre-check alone. -/
def Endpoint.new (k : Kernel) (uid : String) : Option (Endpoint × List (List String)) :=
  match k.ifcs with
  | none => none
  | some l =>
    let newifc := "vxcan" ++ truncateToByteOffset uid 8
    let peerifc := newifc ++ "p"
    if newifc ∈ l then
      some ({ uid := uid, device := newifc, peer := peerifc, created := false }, [])
    else
      match k.exec (vxcanAddCmd newifc peerifc) with
      | none => none
      | some _ =>
        match k.exec (linkUpCmd newifc) with
        | none => none
        | some _ =>
          some ({ uid := uid, device := newifc, peer := peerifc, created := true },
                [vxcanAddCmd newifc peerifc, linkUpCmd newifc])

/-- `impl Drop for Endpoint` (src/endpoint.rs lines 168-195): if `created`,
bring the device down and delete the vxcan pair. -/
def Endpoint.dropRun (k : Kernel) (e : Endpoint) : Option (List (List String)) :=
  if e.created then
    match k.exec (linkDownCmd e.device) with
    | none => none
    | some _ =>
      match k.exec (vxcanDelCmd e.device) with
      | none => none
      | some _ => some [linkDownCmd e.device, vxcanDelCmd e.device]
  else
    some []

/-- The wire response of an attach. The source struct `JoinResponse` has
fields `SrcName` and `DstPrefix`; they are named `srcName` and `dstPref`
here. -/
structure JoinResponse where
  srcName : String
  dstPref : String
deriving DecidableEq

/-- The `Network` struct of src/network.rs. `endpoint_list` keeps map
iteration order explicit; `rules_list` is the ordered rule list. -/
structure Network where
  device : String
  peer : String
  canid : String
  ifc : String
  created : Bool
  endpoint_list : List (String × Endpoint)
  rules_list : List (String × String)
deriving DecidableEq

/-- `Network::new` (src/network.rs lines 52-96): compute `ifc = device ++ canid`,
create-and-up the vcan bus when absent (`.expect` only panics on spawn
failure, exit codes are ignored), `created = !exists`. -/
def Network.new (k : Kernel) (device peer canid : String) :
    Option (Network × List (List String)) :=
  match k.ifcs with
  | none => none
  | some l =>
    let newifc := device ++ canid
    if newifc ∈ l then
      some ({ device := device, peer := peer, canid := canid, ifc := newifc,
              created := false, endpoint_list := [], rules_list := [] }, [])
    else
      match k.exec (vcanAddCmd newifc) with
      | none => none
      | some _ =>
        match k.exec (linkUpCmd newifc) with
        | none => none
        | some _ =>
          some ({ device := device, peer := peer, canid := canid, ifc := newifc,
                  created := true, endpoint_list := [], rules_list := [] },
                [vcanAddCmd newifc, linkUpCmd newifc])

/-- `Network::ensure_network_interface_exists` (src/network.rs lines 118-171):
recreate the vcan bus if missing, treating a "File exists" stderr on the
add as a benign concurrent creation. -/
def Network.ensure_network_interface_exists (k : Kernel) (n : Network) :
    RustResult Network × List (List String) :=
  if ifExists k n.ifc then
    (RustResult.ok n, [])
  else
    match k.exec (vcanAddCmd n.ifc) with
    | none => (RustResult.err, [])
    | some r =>
      if r.exitCode ≠ 0 then
        if strContains r.stderr "File exists" then
          (RustResult.ok n, [vcanAddCmd n.ifc])
        else
          (RustResult.err, [vcanAddCmd n.ifc])
      else
        match k.exec (linkUpCmd n.ifc) with
        | none => (RustResult.err, [vcanAddCmd n.ifc])
        | some r2 =>
          if r2.exitCode ≠ 0 then
            (RustResult.err, [vcanAddCmd n.ifc, linkUpCmd n.ifc])
          else
            (RustResult.ok { n with created := true },
             [vcanAddCmd n.ifc, linkUpCmd n.ifc])

/-- `Network::endpoint_add` (src/network.rs lines 200-203): insert into the
endpoint map. `HashMap::insert` returns the displaced value, which the
source discards, so its `Drop` runs (`Endpoint.dropRun`): the trace of
those teardown commands is part of this operation's effect. -/
def Network.endpoint_add (k : Kernel) (n : Network) (ep : Endpoint) :
    Option (Network × List (List String)) :=
  match listLookup n.endpoint_list ep.uid with
  | some old =>
    match Endpoint.dropRun k old with
    | none => none
    | some tr =>
      some ({ n with endpoint_list := listInsert n.endpoint_list ep.uid ep }, tr)
  | none =>
    some ({ n with endpoint_list := listInsert n.endpoint_list ep.uid ep }, [])

/-- `Network::add_cangw_rule` (src/network.rs lines 315-339): spawn the
standard and extended `cangw -A` commands (exit codes ignored, spawn
failure panics) and unconditionally push the pair onto the rule list. -/
def addCangwRule (k : Kernel) (rules : List (String × String)) (src dst : String) :
    Option (List (String × String) × List (List String)) :=
  match k.exec (cangwAddCmd src dst false) with
  | none => none
  | some _ =>
    match k.exec (cangwAddCmd src dst true) with
    | none => none
    | some _ =>
      some (rules ++ [(src, dst)], [cangwAddCmd src dst false, cangwAddCmd src dst true])

/-- `Network::remove_cangw_rule` (src/network.rs lines 341-372): only if the
pair is in the rule list, spawn the two `cangw -D` commands and remove the
first occurrence of the pair; otherwise do nothing. -/
def removeCangwRule (k : Kernel) (rules : List (String × String)) (src dst : String) :
    Option (List (String × String) × List (List String)) :=
  if (src, dst) ∈ rules then
    match k.exec (cangwDelCmd src dst false) with
    | none => none
    | some _ =>
      match k.exec (cangwDelCmd src dst true) with
      | none => none
      | some _ =>
        some (eraseFirstPair rules (src, dst), [cangwDelCmd src dst false, cangwDelCmd src dst true])
  else
    some (rules, [])

/-- The cross-wiring loop of `Network::endpoint_attach` (src/network.rs
lines 265-278): for every other endpoint whose device is currently
enumerated by the kernel, add the pair of cross rules; missing peers are
skipped with a warning. -/
def attachLoop (k : Kernel) (epuid epdev : String) :
    List (String × Endpoint) → List (String × String) →
    Option (List (String × String) × List (List String))
  | [], rules => some (rules, [])
  | (uid, endpt) :: rest, rules =>
    if uid = epuid then
      attachLoop k epuid epdev rest rules
    else if Endpoint.interface_exists k endpt = false then
      attachLoop k epuid epdev rest rules
    else
      match addCangwRule k rules endpt.device epdev with
      | none => none
      | some (r1, t1) =>
        match addCangwRule k r1 epdev endpt.device with
        | none => none
        | some (r2, t2) =>
          match attachLoop k epuid epdev rest r2 with
          | none => none
          | some (r3, t3) => some (r3, t1 ++ t2 ++ t3)

/-- `Network::endpoint_attach` (src/network.rs lines 213-293). -/
def Network.endpoint_attach (k : Kernel) (n : Network) (epuid : String)
    (_namespace peer : String) :
    Option (RustResult JoinResponse × Network × List (List String)) :=
  match Network.ensure_network_interface_exists k n with
  | (RustResult.err, tr0) => some (RustResult.err, n, tr0)
  | (RustResult.ok n1, tr0) =>
    match listLookup n1.endpoint_list epuid with
    | none => some (RustResult.err, n1, tr0)
    | some ep0 =>
      match Endpoint.ensure_interface_exists k ep0 with
      | (RustResult.err, tr1) => some (RustResult.err, n1, tr0 ++ tr1)
      | (RustResult.ok (_, ep1), tr1) =>
        let n2 : Network := { n1 with endpoint_list := listInsert n1.endpoint_list epuid ep1 }
        match listLookup n2.endpoint_list epuid with
        | none => some (RustResult.err, n2, tr0 ++ tr1)
        | some ep =>
          match addCangwRule k n2.rules_list n2.ifc ep.device with
          | none => none
          | some (r1, t1) =>
            match addCangwRule k r1 ep.device n2.ifc with
            | none => none
            | some (r2, t2) =>
              match attachLoop k epuid ep.device n2.endpoint_list r2 with
              | none => none
              | some (r3, t3) =>
                let peerifc := if peer = "" then n2.peer else peer
                some (RustResult.ok { srcName := ep.peer, dstPref := peerifc },
                      { n2 with rules_list := r3 },
                      tr0 ++ tr1 ++ t1 ++ t2 ++ t3)

/-- The removal loop of `Network::endpoint_detach` (src/network.rs lines
299-305): for every other endpoint, remove both cross-rule directions
(no kernel-presence check on this side). -/
def detachLoop (k : Kernel) (epuid epdev : String) :
    List (String × Endpoint) → List (String × String) →
    Option (List (String × String) × List (List String))
  | [], rules => some (rules, [])
  | (uid, endpt) :: rest, rules =>
    if uid = epuid then
      detachLoop k epuid epdev rest rules
    else
      match removeCangwRule k rules endpt.device epdev with
      | none => none
      | some (r1, t1) =>
        match removeCangwRule k r1 epdev endpt.device with
        | none => none
        | some (r2, t2) =>
          match detachLoop k epuid epdev rest r2 with
          | none => none
          | some (r3, t3) => some (r3, t1 ++ t2 ++ t3)

/-- `Network::endpoint_detach` (src/network.rs lines 295-313). -/
def Network.endpoint_detach (k : Kernel) (n : Network) (epuid : String) :
    Option (Network × List (List String)) :=
  match listLookup n.endpoint_list epuid with
  | none => some (n, [])
  | some ep =>
    match detachLoop k epuid ep.device n.endpoint_list n.rules_list with
    | none => none
    | some (r1, t1) =>
      match removeCangwRule k r1 ep.device n.ifc with
      | none => none
      | some (r2, t2) =>
        match removeCangwRule k r2 n.ifc ep.device with
        | none => none
        | some (r3, t3) => some ({ n with rules_list := r3 }, t1 ++ t2 ++ t3)

/-- The persisted per-network configuration (`NetworkConfig` in src/manager.rs). -/
structure NetworkConfig where
  device : String
  peer : String
  canid : String
deriving DecidableEq

/-- The manager's observable state: the in-memory network map of the
`NetworkManager` struct together with the persistence file at
`/var/lib/docker/network/files/rustycan4docker-networks.json`, modelled
by its parsed content (`none` = the file does not exist / cannot be read;
a file that reads but fails to parse is treated by every reader of the
source either as empty via `unwrap_or_default` or as a read error, and is
not modelled separately). File writes are modelled as succeeding; a failed
write is only logged by the source and does not change the maps. -/
structure ManagerState where
  network_list : List (String × Network)
  file : Option (List (String × NetworkConfig))
deriving DecidableEq

/-- The abstract content of an `options` JSON blob as the manager reads it:
either it fails to parse as JSON, or it is a value from which
`v["vxcan.dev"].as_str()`, `v["vxcan.peer"].as_str()` and
`v["vxcan.id"].as_str()` give the three optional strings. -/
inductive OptionsBlob where
  | invalid
  | valid (dev : Option String) (peerOpt : Option String) (id : Option String)
deriving DecidableEq

/-- `NetworkManager::options_parse` (src/manager.rs lines 428-458). -/
def optionsParse (o : OptionsBlob) : RustResult (String × String × String) :=
  match o with
  | OptionsBlob.invalid => RustResult.err
  | OptionsBlob.valid d p i =>
    RustResult.ok (d.getD "vcan", p.getD "vcanp", i.getD "0")

/-- The peer override extraction of `NetworkManager::endpoint_attach`
(src/manager.rs lines 395-401): a parse failure or a missing/non-string
`vxcan.peer` key yields the empty string. -/
def peerFromOptions (o : OptionsBlob) : String :=
  match o with
  | OptionsBlob.invalid => ""
  | OptionsBlob.valid _ p _ => p.getD ""

/-- `NetworkManager::persist_network_config` (src/manager.rs lines 171-197):
read the whole file (absent or unreadable = empty map), add/update the one
entry, write the whole file back. -/
def ManagerState.persist_network_config (st : ManagerState) (nuid : String)
    (cfg : NetworkConfig) : ManagerState :=
  let configs := match st.file with
    | some m => m
    | none => []
  { st with file := some (listInsert configs nuid cfg) }

/-- `NetworkManager::network_create` (src/manager.rs lines 150-168).
The displaced `Network` on a key collision is dropped by `HashMap::insert`;
its teardown commands are not tracked at this level (they do not affect
either map). -/
def ManagerState.network_create (k : Kernel) (st : ManagerState) (uid : String)
    (options : OptionsBlob) : Option ManagerState :=
  match optionsParse options with
  | RustResult.err => some st
  | RustResult.ok (d, p, c) =>
    match Network.new k d p c with
    | none => none
    | some (nw, _) =>
      let st1 : ManagerState := { st with network_list := listInsert st.network_list uid nw }
      some (ManagerState.persist_network_config st1 uid { device := d, peer := p, canid := c })

/-- `NetworkManager::network_delete` (src/manager.rs lines 199-218):
remove from the map if present, then read-modify-write the file without
the entry. -/
def ManagerState.network_delete (st : ManagerState) (uid : String) : ManagerState :=
  let nl := listErase st.network_list uid
  let configs := match st.file with
    | some m => m
    | none => []
  { network_list := nl, file := some (listErase configs uid) }

/-- One network as reported by the container engine (`bollard`). -/
structure DockerNetwork where
  driver : Option String
  options : Option (List (String × String))
  id : Option String

/-- The per-network body of the `network_load` loop (src/manager.rs lines
118-143): adopt engine networks whose driver is "rustyvxcan", with option
defaults `vcan` / `vcan` / `0`. -/
def ManagerState.loadOne (k : Kernel) (st : ManagerState) (dn : DockerNetwork) :
    Option ManagerState :=
  match dn.driver, dn.options, dn.id with
  | some driver, some opts, some nid =>
    if driver = "rustyvxcan" then
      let device := (listLookup opts "vxcan.dev").getD "vcan"
      let peer := (listLookup opts "vxcan.peer").getD "vcan"
      let canid := (listLookup opts "vxcan.id").getD "0"
      match Network.new k device peer canid with
      | none => none
      | some (nw, _) =>
        some { st with network_list := listInsert st.network_list nid nw }
    else
      some st
  | _, _, _ => some st

/-- Fold of `ManagerState.loadOne` over the engine's network list. -/
def ManagerState.loadAll (k : Kernel) (st : ManagerState) :
    List DockerNetwork → Option ManagerState
  | [] => some st
  | dn :: rest =>
    match ManagerState.loadOne k st dn with
    | none => none
    | some st1 => ManagerState.loadAll k st1 rest

/-- `NetworkManager::network_load` (src/manager.rs lines 101-148): if the
persistence file is absent, skip entirely; otherwise enumerate the engine's
networks (`docker = none` models a failed enumeration, which is only
logged) and adopt the matching ones. The persistence file is not written. -/
def ManagerState.network_load (k : Kernel) (st : ManagerState)
    (docker : Option (List DockerNetwork)) : Option ManagerState :=
  match st.file with
  | none => some st
  | some _ =>
    match docker with
    | none => some st
    | some nets => ManagerState.loadAll k st nets

/-- `NetworkManager::endpoint_create` (src/manager.rs lines 220-233):
`Endpoint::new` runs FIRST; only then is the network looked up. When the
network is absent, the fresh `Endpoint` goes out of scope and its `Drop`
runs (`Endpoint.dropRun`). -/
def ManagerState.endpoint_create (k : Kernel) (st : ManagerState)
    (nuid epuid : String) : Option (ManagerState × List (List String)) :=
  match Endpoint.new k epuid with
  | none => none
  | some (ep, tr1) =>
    match listLookup st.network_list nuid with
    | some n =>
      match Network.endpoint_add k n ep with
      | none => none
      | some (n1, tr2) =>
        some ({ st with network_list := listInsert st.network_list nuid n1 }, tr1 ++ tr2)
    | none =>
      match Endpoint.dropRun k ep with
      | none => none
      | some tr2 => some (st, tr1 ++ tr2)

/-- The final phase of `NetworkManager::endpoint_attach` (src/manager.rs
lines 390-413): re-acquire the map, parse the peer override, and delegate
to `Network::endpoint_attach` (whose partial mutations persist even on
error, because the network sits behind the lock). -/
def ManagerState.attachFinish (k : Kernel) (st : ManagerState) (nuid epuid : String)
    (options : OptionsBlob) (tr : List (List String)) :
    Option (RustResult JoinResponse × ManagerState × List (List String)) :=
  match listLookup st.network_list nuid with
  | none => some (RustResult.err, st, tr)
  | some n =>
    let peer := peerFromOptions options
    match Network.endpoint_attach k n epuid "" peer with
    | none => none
    | some (res, n1, tr1) =>
      some (res, { st with network_list := listInsert st.network_list nuid n1 }, tr ++ tr1)

/-- `NetworkManager::endpoint_attach` (src/manager.rs lines 256-414):
double-checked recovery of a missing network from the persistence file,
recreation of a missing endpoint, then the actual attach. The
double-checked-locking re-reads collapse in this sequential embedding. -/
def ManagerState.endpoint_attach (k : Kernel) (st : ManagerState)
    (nuid epuid : String) (_sbox : String) (options : OptionsBlob) :
    Option (RustResult JoinResponse × ManagerState × List (List String)) :=
  let recov : Option (RustResult Unit × ManagerState × List (List String)) :=
    match listLookup st.network_list nuid with
    | some _ => some (RustResult.ok (), st, [])
    | none =>
      match st.file with
      | none => some (RustResult.err, st, [])
      | some configs =>
        match listLookup configs nuid with
        | none => some (RustResult.err, st, [])
        | some cfg =>
          match Network.new k cfg.device cfg.peer cfg.canid with
          | none => none
          | some (nw, tr) =>
            some (RustResult.ok (),
                  { st with network_list := listInsert st.network_list nuid nw }, tr)
  match recov with
  | none => none
  | some (RustResult.err, st1, tr1) => some (RustResult.err, st1, tr1)
  | some (RustResult.ok _, st1, tr1) =>
    match listLookup st1.network_list nuid with
    | none => some (RustResult.err, st1, tr1)
    | some n =>
      match listLookup n.endpoint_list epuid with
      | some _ => ManagerState.attachFinish k st1 nuid epuid options tr1
      | none =>
        match Endpoint.new k epuid with
        | none => none
        | some (ep, tr2) =>
          match Network.endpoint_add k n ep with
          | none => none
          | some (n1, tr3) =>
            ManagerState.attachFinish k
              { st1 with network_list := listInsert st1.network_list nuid n1 }
              nuid epuid options (tr1 ++ tr2 ++ tr3)

/-- `NetworkManager::endpoint_detach` (src/manager.rs lines 416-426). -/
def ManagerState.endpoint_detach (k : Kernel) (st : ManagerState)
    (nuid epuid : String) : Option (ManagerState × List (List String)) :=
  match listLookup st.network_list nuid with
  | none => some (st, [])
  | some n =>
    match Network.endpoint_detach k n epuid with
    | none => none
    | some (n1, tr) =>
      some ({ st with network_list := listInsert st.network_list nuid n1 }, tr)

/-- The `NetworkConfig` a network would persist as. -/
def configOf (n : Network) : NetworkConfig :=
  { device := n.device, peer := n.peer, canid := n.canid }

/-- Invariant I5 / P4 of the spec: the persistence file deserialises to a
map whose key set equals the key set of the in-memory network map, with
per-key field equality of device, peer and canid. -/
def syncOK (st : ManagerState) : Prop :=
  (∀ key n, listLookup st.network_list key = some n →
    listLookup (st.file.getD []) key = some (configOf n)) ∧
  (∀ key cfg, listLookup (st.file.getD []) key = some cfg →
    ∃ n, listLookup st.network_list key = some n ∧ cfg = configOf n)

/-- Keys of an association list are pairwise distinct (true of every list
that mirrors a `HashMap`). -/
def keysNodup {α : Type} (m : List (String × α)) : Prop :=
  (m.map Prod.fst).Nodup

/-- The logical pairs the cross-wiring loop of `endpoint_attach` appends,
in order: for every other endpoint whose device the kernel enumerates,
(other, this) then (this, other). -/
def crossPairs (k : Kernel) (epuid epdev : String) :
    List (String × Endpoint) → List (String × String)
  | [] => []
  | (uid, endpt) :: rest =>
    if uid = epuid then crossPairs k epuid epdev rest
    else if Endpoint.interface_exists k endpt = false then crossPairs k epuid epdev rest
    else (endpt.device, epdev) :: (epdev, endpt.device) :: crossPairs k epuid epdev rest

/-- All logical pairs a successful attach pushes, in order: the two bus
rules, then the cross rules of the loop. -/
def attachAddedPairs (k : Kernel) (ifc epuid epdev : String)
    (eps : List (String × Endpoint)) : List (String × String) :=
  (ifc, epdev) :: (epdev, ifc) :: crossPairs k epuid epdev eps

/-- The pairs the detach loop tries to remove, in order: for every other
endpoint (no kernel check on this side), (other, this) then (this, other). -/
def crossRemoveSeq (epuid epdev : String) :
    List (String × Endpoint) → List (String × String)
  | [] => []
  | (uid, endpt) :: rest =>
    if uid = epuid then crossRemoveSeq epuid epdev rest
    else (endpt.device, epdev) :: (epdev, endpt.device) :: crossRemoveSeq epuid epdev rest

/-- The full ordered removal sequence of `endpoint_detach`: the cross
pairs of the loop, then the two bus pairs. -/
def detachRemoveSeq (epuid epdev ifc : String)
    (eps : List (String × Endpoint)) : List (String × String) :=
  crossRemoveSeq epuid epdev eps ++ [(epdev, ifc), (ifc, epdev)]

/-- The vxcan device name `Endpoint::new` derives from a uid. -/
def vxcanDevName (uid : String) : String :=
  "vxcan" ++ truncateToByteOffset uid 8

/-- A kernel in which the bus `vcan0` and the devices `vxcanAAAAAAAA`,
`va`, `vb` exist and every command spawns and exits 0. -/
def kOk : Kernel :=
  { ifcs := some ["vcan0", "vxcanAAAAAAAA", "va", "vb"],
    exec := fun _ => some { exitCode := 0, stderr := "" } }

/-- A kernel with no interfaces where every command spawns and exits 0. -/
def kEmpty : Kernel :=
  { ifcs := some [], exec := fun _ => some { exitCode := 0, stderr := "" } }

/-- A kernel with no interfaces where the vxcan pair-add for
`vxcanAAAAAAAA` exits 2 with a stderr that does not contain
"File exists", and every other command exits 0. -/
def kBadExit : Kernel :=
  { ifcs := some [],
    exec := fun c => some (if c = vxcanAddCmd "vxcanAAAAAAAA" "vxcanAAAAAAAAp"
      then { exitCode := 2, stderr := "RTNETLINK answers: Operation not permitted" }
      else { exitCode := 0, stderr := "" }) }

/-- A kernel where only the bus `vcan0` exists and the vxcan pair-add for
`vxcanAAAAAAAA` loses a creation race: exit 2 with "File exists" on
stderr; every other command exits 0. -/
def kRace : Kernel :=
  { ifcs := some ["vcan0"],
    exec := fun c => some (if c = vxcanAddCmd "vxcanAAAAAAAA" "vxcanAAAAAAAAp"
      then { exitCode := 2, stderr := "RTNETLINK answers: File exists" }
      else { exitCode := 0, stderr := "" }) }

def eAAA : Endpoint :=
  { uid := "AAAAAAAAAA", device := "vxcanAAAAAAAA", peer := "vxcanAAAAAAAAp", created := false }

/-- A network on bus `vcan0` with the single endpoint `eAAA` and no rules. -/
def nOne : Network :=
  { device := "vcan", peer := "vcanp", canid := "0", ifc := "vcan0", created := false,
    endpoint_list := [("AAAAAAAAAA", eAAA)], rules_list := [] }

def nOneR1 : Network :=
  { nOne with rules_list := [("vcan0", "vxcanAAAAAAAA"), ("vxcanAAAAAAAA", "vcan0")] }

def nOneR2 : Network :=
  { nOne with rules_list := [("vcan0", "vxcanAAAAAAAA"), ("vxcanAAAAAAAA", "vcan0"),
                             ("vcan0", "vxcanAAAAAAAA"), ("vxcanAAAAAAAA", "vcan0")] }

/-- The four `cangw -A` command lines of a bus-rule pair for `vxcanAAAAAAAA`. -/
def tBusA : List (List String) :=
  [cangwAddCmd "vcan0" "vxcanAAAAAAAA" false, cangwAddCmd "vcan0" "vxcanAAAAAAAA" true,
   cangwAddCmd "vxcanAAAAAAAA" "vcan0" false, cangwAddCmd "vxcanAAAAAAAA" "vcan0" true]

def eVa : Endpoint := { uid := "A", device := "va", peer := "vap", created := false }

def eVb : Endpoint := { uid := "B", device := "vb", peer := "vbp", created := false }

/-- A network on bus `vcan0` with two endpoints `A` and `B` and no rules. -/
def nTwo : Network :=
  { device := "vcan", peer := "vcanp", canid := "0", ifc := "vcan0", created := false,
    endpoint_list := [("A", eVa), ("B", eVb)], rules_list := [] }

def nTwo1 : Network :=
  { nTwo with rules_list := [("vcan0", "va"), ("va", "vcan0"), ("vb", "va"), ("va", "vb")] }

def nTwo2 : Network :=
  { nTwo with rules_list := [("vcan0", "va"), ("va", "vcan0"), ("vb", "va"), ("va", "vb"),
                             ("vcan0", "vb"), ("vb", "vcan0"), ("va", "vb"), ("vb", "va")] }

def nTwo3 : Network :=
  { nTwo with rules_list := nTwo2.rules_list ++
      [("vcan0", "va"), ("va", "vcan0"), ("vb", "va"), ("va", "vb")] }

def nTwo4 : Network :=
  { nTwo with rules_list := [("vcan0", "vb"), ("vb", "vcan0"), ("va", "vb"), ("vb", "va"),
                             ("vcan0", "va"), ("va", "vcan0"), ("vb", "va"), ("va", "vb")] }

/-- A displaced map entry whose endpoint was created by this process. -/
def eColl : Endpoint := { uid := "E", device := "vxcanE", peer := "vxcanEp", created := true }

def eCollNew : Endpoint := { uid := "E", device := "vxcanE", peer := "vxcanEp", created := false }

def nColl : Network :=
  { device := "vcan", peer := "vcanp", canid := "0", ifc := "vcan0", created := false,
    endpoint_list := [("E", eColl)], rules_list := [] }

/-- A network on bus `vcan0` with no endpoints. -/
def nNoEp : Network :=
  { device := "vcan", peer := "vcanp", canid := "0", ifc := "vcan0", created := false,
    endpoint_list := [], rules_list := [] }

def cfgN1 : NetworkConfig := { device := "vcan", peer := "vcanp", canid := "0" }

def stOneNet : ManagerState :=
  { network_list := [("N1", nNoEp)], file := some [("N1", cfgN1)] }

def stEmpty : ManagerState := { network_list := [], file := none }

def stSync : ManagerState := { network_list := [], file := some [] }

def dnNine : DockerNetwork :=
  { driver := some "rustyvxcan", options := some [], id := some "N9" }

def nLoaded : Network :=
  { device := "vcan", peer := "vcan", canid := "0", ifc := "vcan0", created := false,
    endpoint_list := [], rules_list := [] }

def stAfterLoad : ManagerState := { network_list := [("N9", nLoaded)], file := some [] }

def stC6 : ManagerState :=
  { network_list := [("N1", nOne)], file := some [("N1", cfgN1)] }

def blobC6 : OptionsBlob := OptionsBlob.valid none (some "can42") none

def stC6fin : ManagerState :=
  { network_list := [("N1", nOneR1)], file := some [("N1", cfgN1)] }

def blobW : OptionsBlob := OptionsBlob.valid (some "vcan") (some "vcanp") (some "0")

def stWafter : ManagerState :=
  { network_list := [("N1", nNoEp)], file := some [("N1", cfgN1)] }

def nW9 : Network :=
  { device := "vx", peer := "vxp", canid := "9", ifc := "vx9", created := true,
    endpoint_list := [], rules_list := [] }

def trW9 : List (List String) := [vcanAddCmd "vx9", linkUpCmd "vx9"]

def eAAAcreated : Endpoint :=
  { uid := "AAAAAAAAAA", device := "vxcanAAAAAAAA", peer := "vxcanAAAAAAAAp", created := true }

theorem listLookup_listInsert_self {α : Type} (m : List (String × α)) (key : String) (v : α) :
    listLookup (listInsert m key v) key = some v := by
  induction m with
  | nil => simp [listInsert, listLookup]
  | cons hd tl ih =>
    obtain ⟨k, w⟩ := hd
    by_cases hk : k = key
    · simp [listInsert, hk, listLookup]
    · simp [listInsert, hk, listLookup, ih]

theorem listLookup_listInsert_ne {α : Type} (m : List (String × α)) (key k' : String) (v : α)
    (h : k' ≠ key) : listLookup (listInsert m key v) k' = listLookup m k' := by
  induction m with
  | nil => simp [listInsert, listLookup, Ne.symm h]
  | cons hd tl ih =>
    obtain ⟨k, w⟩ := hd
    by_cases hk : k = key
    · subst hk
      simp [listInsert, listLookup, Ne.symm h]
    · simp [listInsert, hk, listLookup, ih]

theorem listInsert_self {α : Type} (m : List (String × α)) (key : String) (v : α)
    (h : listLookup m key = some v) : listInsert m key v = m := by
  induction m with
  | nil => simp [listLookup] at h
  | cons hd tl ih =>
    obtain ⟨k, w⟩ := hd
    by_cases hk : k = key
    · subst hk
      simp [listLookup] at h
      simp [listInsert, h]
    · simp [listLookup, hk] at h
      simp [listInsert, hk, ih h]

theorem listLookup_listErase_ne {α : Type} (m : List (String × α)) (key k' : String)
    (h : k' ≠ key) : listLookup (listErase m key) k' = listLookup m k' := by
  induction m with
  | nil => simp [listErase]
  | cons hd tl ih =>
    obtain ⟨k, w⟩ := hd
    by_cases hk : k = key
    · subst hk
      simp [listErase, listLookup, Ne.symm h]
    · simp [listErase, hk, listLookup, ih]

theorem listLookup_none_of_not_mem_keys {α : Type} (m : List (String × α)) (key : String)
    (h : key ∉ m.map Prod.fst) : listLookup m key = none := by
  induction m with
  | nil => rfl
  | cons hd tl ih =>
    obtain ⟨k, w⟩ := hd
    simp only [List.map_cons, List.mem_cons] at h
    push_neg at h
    simp only [listLookup]
    rw [if_neg (fun hc => h.1 hc.symm)]
    exact ih h.2

theorem listLookup_listErase_self {α : Type} (m : List (String × α)) (key : String)
    (h : keysNodup m) : listLookup (listErase m key) key = none := by
  induction m with
  | nil => rfl
  | cons hd tl ih =>
    obtain ⟨k, w⟩ := hd
    simp only [keysNodup, List.map_cons, List.nodup_cons] at h
    by_cases hk : k = key
    · subst hk
      simp only [listErase, if_pos rfl]
      exact listLookup_none_of_not_mem_keys tl k h.1
    · simp only [listErase, if_neg hk, listLookup]
      exact ih h.2

theorem eraseFirstPair_of_not_mem (l : List (String × String)) (p : String × String)
    (h : p ∉ l) : eraseFirstPair l p = l := by
  induction l with
  | nil => rfl
  | cons q rest ih =>
    simp only [List.mem_cons] at h
    push_neg at h
    simp only [eraseFirstPair]
    rw [if_neg (fun hc => h.1 hc.symm), ih h.2]

theorem perm_cons_eraseFirstPair (l : List (String × String)) (p : String × String)
    (h : p ∈ l) : List.Perm l (p :: eraseFirstPair l p) := by
  induction l with
  | nil => simp at h
  | cons q rest ih =>
    by_cases hq : q = p
    · subst hq
      simp [eraseFirstPair]
    · have hp : p ∈ rest := by
        rcases List.mem_cons.mp h with h1 | h2
        · exact absurd h1.symm hq
        · exact h2
      have step1 : List.Perm (q :: rest) (q :: (p :: eraseFirstPair rest p)) :=
        List.Perm.cons q (ih hp)
      have step2 : List.Perm (q :: (p :: eraseFirstPair rest p))
          (p :: (q :: eraseFirstPair rest p)) := List.Perm.swap _ _ _
      have heq : p :: eraseFirstPair (q :: rest) p = p :: (q :: eraseFirstPair rest p) := by
        simp [eraseFirstPair, hq]
      rw [heq]
      exact step1.trans step2

theorem foldl_eraseFirstPair_perm :
    ∀ (R L r : List (String × String)), List.Perm L (r ++ R) →
      List.Perm (List.foldl eraseFirstPair L R) r := by
  intro R
  induction R with
  | nil =>
    intro L r h
    simpa using h
  | cons p R' ih =>
    intro R L h
    have hmem : p ∈ R := by
      have hp : p ∈ L ++ p :: R' := by simp
      exact (List.Perm.mem_iff h).mpr hp
    have h1 : List.Perm R (p :: (L ++ R')) := h.trans List.perm_middle
    have h2 : List.Perm (p :: eraseFirstPair R p) (p :: (L ++ R')) :=
      ((perm_cons_eraseFirstPair R p hmem).symm).trans h1
    have h3 : List.Perm (eraseFirstPair R p) (L ++ R') := List.Perm.cons_inv h2
    simpa [List.foldl_cons] using ih (eraseFirstPair R p) L h3

theorem truncChars_append (n : Nat) (l : List Char) :
    ∃ t, l = truncChars n l ++ t := by
  induction l generalizing n with
  | nil => exact ⟨[], rfl⟩
  | cons c cs ih =>
    by_cases hc : Char.utf8Size c ≤ n
    · obtain ⟨t, ht⟩ := ih (n - Char.utf8Size c)
      exact ⟨t, by simpa [truncChars, hc] using ht⟩
    · exact ⟨c :: cs, by simp [truncChars, hc]⟩

theorem truncChars_byteLen (n : Nat) (l : List Char) :
    charsByteLen (truncChars n l) ≤ n := by
  induction l generalizing n with
  | nil => simp [truncChars, charsByteLen]
  | cons c cs ih =>
    by_cases hc : Char.utf8Size c ≤ n
    · have hr := ih (n - Char.utf8Size c)
      simp only [truncChars, if_pos hc, charsByteLen, List.foldr_cons] at *
      omega
    · simp [truncChars, hc, charsByteLen]

theorem truncChars_of_byteLen_le (n : Nat) (l : List Char)
    (h : charsByteLen l ≤ n) : truncChars n l = l := by
  induction l generalizing n with
  | nil => rfl
  | cons c cs ih =>
    simp only [charsByteLen, List.foldr_cons] at h
    have hc : Char.utf8Size c ≤ n := by omega
    have hcs : charsByteLen cs ≤ n - Char.utf8Size c := by
      simp only [charsByteLen]
      omega
    simp [truncChars, hc, ih _ hcs]

theorem truncChars_max (n : Nat) (l t r : List Char)
    (hl : l = t ++ r) (ht : charsByteLen t ≤ n) :
    ∃ r', truncChars n l = t ++ r' := by
  induction t generalizing n l with
  | nil => exact ⟨truncChars n l, rfl⟩
  | cons c t' ih =>
    subst hl
    simp only [charsByteLen, List.foldr_cons] at ht
    have hc : Char.utf8Size c ≤ n := by omega
    have ht' : charsByteLen t' ≤ n - Char.utf8Size c := by
      simp only [charsByteLen]
      omega
    obtain ⟨r', hr'⟩ := ih (n - Char.utf8Size c) (t' ++ r) rfl ht'
    exact ⟨r', by simp [truncChars, hc, hr']⟩

theorem ensure_net_of_present (k : Kernel) (n : Network) (h : ifExists k n.ifc = true) :
    Network.ensure_network_interface_exists k n = (RustResult.ok n, []) := by
  simp [Network.ensure_network_interface_exists, h]

theorem ensure_ep_of_present (k : Kernel) (e : Endpoint) (h : ifExists k e.device = true) :
    Endpoint.ensure_interface_exists k e = (RustResult.ok (false, e), []) := by
  simp [Endpoint.ensure_interface_exists, Endpoint.interface_exists, h]

theorem ensure_ep_file_exists (k : Kernel) (e : Endpoint) (r : CmdResult)
    (habs : ifExists k e.device = false)
    (hx : k.exec (vxcanAddCmd e.device e.peer) = some r)
    (hc : r.exitCode ≠ 0)
    (hs : strContains r.stderr "File exists" = true) :
    Endpoint.ensure_interface_exists k e =
      (RustResult.ok (false, e), [vxcanAddCmd e.device e.peer]) := by
  simp [Endpoint.ensure_interface_exists, Endpoint.interface_exists, habs, hx, hc, hs]

theorem ensure_net_fields (k : Kernel) (n n1 : Network) (tr : List (List String))
    (h : Network.ensure_network_interface_exists k n = (RustResult.ok n1, tr)) :
    n1.device = n.device ∧ n1.peer = n.peer ∧ n1.canid = n.canid ∧ n1.ifc = n.ifc ∧
    n1.endpoint_list = n.endpoint_list ∧ n1.rules_list = n.rules_list := by
  unfold Network.ensure_network_interface_exists at h
  repeat' split at h
  all_goals simp_all
  all_goals (obtain ⟨h1, h2⟩ := h; subst h1; simp)

theorem ensure_ep_fields (k : Kernel) (e : Endpoint) (b : Bool) (e' : Endpoint)
    (tr : List (List String))
    (h : Endpoint.ensure_interface_exists k e = (RustResult.ok (b, e'), tr)) :
    e'.uid = e.uid ∧ e'.device = e.device ∧ e'.peer = e.peer := by
  unfold Endpoint.ensure_interface_exists at h
  repeat' split at h
  all_goals simp_all
  all_goals (obtain ⟨⟨h1, h2⟩, h3⟩ := h; subst h2; simp)

theorem addCangwRule_total (k : Kernel) (rules : List (String × String)) (src dst : String)
    (htotal : ∀ c, ∃ r, k.exec c = some r) :
    addCangwRule k rules src dst =
      some (rules ++ [(src, dst)], [cangwAddCmd src dst false, cangwAddCmd src dst true]) := by
  obtain ⟨r1, hr1⟩ := htotal (cangwAddCmd src dst false)
  obtain ⟨r2, hr2⟩ := htotal (cangwAddCmd src dst true)
  simp [addCangwRule, hr1, hr2]

theorem attachLoop_total (k : Kernel) (epuid epdev : String)
    (htotal : ∀ c, ∃ r, k.exec c = some r) :
    ∀ (eps : List (String × Endpoint)) (rules : List (String × String)),
      ∃ t, attachLoop k epuid epdev eps rules =
          some (rules ++ crossPairs k epuid epdev eps, t) ∧
        ∀ c ∈ t, ∃ s d b, c = cangwAddCmd s d b := by
  intro eps
  induction eps with
  | nil =>
    intro rules
    exact ⟨[], by simp [attachLoop, crossPairs], by simp⟩
  | cons hd rest ih =>
    intro rules
    obtain ⟨uid, endpt⟩ := hd
    by_cases huid : uid = epuid
    · obtain ⟨t, ht, hall⟩ := ih rules
      exact ⟨t, by simpa [attachLoop, crossPairs, huid] using ht, hall⟩
    · by_cases hex : Endpoint.interface_exists k endpt = false
      · obtain ⟨t, ht, hall⟩ := ih rules
        exact ⟨t, by simpa [attachLoop, crossPairs, huid, hex] using ht, hall⟩
      · obtain ⟨t, ht, hall⟩ :=
          ih (rules ++ [(endpt.device, epdev)] ++ [(epdev, endpt.device)])
        refine ⟨[cangwAddCmd endpt.device epdev false, cangwAddCmd endpt.device epdev true,
                 cangwAddCmd epdev endpt.device false, cangwAddCmd epdev endpt.device true] ++ t,
                ?_, ?_⟩
        · simp only [attachLoop, if_neg huid, if_neg hex,
            addCangwRule_total k _ _ _ htotal, ht]
          simp [crossPairs, huid, hex]
        · intro c hc
          simp only [List.mem_append, List.mem_cons, List.not_mem_nil] at hc
          rcases hc with hc | hc
          · rcases hc with hc | hc | hc | hc | hc
            · exact ⟨endpt.device, epdev, false, hc⟩
            · exact ⟨endpt.device, epdev, true, hc⟩
            · exact ⟨epdev, endpt.device, false, hc⟩
            · exact ⟨epdev, endpt.device, true, hc⟩
            · exact absurd hc (by simp)
          · exact hall c hc

theorem attach_ok_char (k : Kernel) (n : Network) (epuid ns pr : String) (e : Endpoint)
    (tr0 : List (List String))
    (hifc : ifExists k n.ifc = true)
    (he : listLookup n.endpoint_list epuid = some e)
    (hens : Endpoint.ensure_interface_exists k e = (RustResult.ok (false, e), tr0))
    (htotal : ∀ c, ∃ r, k.exec c = some r) :
    ∃ t, Network.endpoint_attach k n epuid ns pr =
        some (RustResult.ok { srcName := e.peer, dstPref := if pr = "" then n.peer else pr },
              { n with rules_list := n.rules_list ++
                  attachAddedPairs k n.ifc epuid e.device n.endpoint_list },
              tr0 ++ t) ∧
      ∀ c ∈ t, ∃ s d b, c = cangwAddCmd s d b := by
  obtain ⟨t3, ht3, hall3⟩ := attachLoop_total k epuid e.device htotal n.endpoint_list
      (n.rules_list ++ [(n.ifc, e.device)] ++ [(e.device, n.ifc)])
  have hins : listInsert n.endpoint_list epuid e = n.endpoint_list :=
    listInsert_self n.endpoint_list epuid e he
  refine ⟨[cangwAddCmd n.ifc e.device false, cangwAddCmd n.ifc e.device true,
           cangwAddCmd e.device n.ifc false, cangwAddCmd e.device n.ifc true] ++ t3,
          ?_, ?_⟩
  · unfold Network.endpoint_attach
    rw [ensure_net_of_present k n hifc]
    simp only [he, hens, hins]
    have hbus1 := addCangwRule_total k n.rules_list n.ifc e.device htotal
    have hbus2 := addCangwRule_total k (n.rules_list ++ [(n.ifc, e.device)])
        e.device n.ifc htotal
    simp only [hbus1, hbus2, ht3, attachAddedPairs]
    simp [List.append_assoc]
  · intro c hc
    simp only [List.mem_append, List.mem_cons, List.not_mem_nil] at hc
    rcases hc with hc | hc
    · rcases hc with hc | hc | hc | hc | hc
      · exact ⟨n.ifc, e.device, false, hc⟩
      · exact ⟨n.ifc, e.device, true, hc⟩
      · exact ⟨e.device, n.ifc, false, hc⟩
      · exact ⟨e.device, n.ifc, true, hc⟩
      · exact absurd hc (by simp)
    · exact hall3 c hc

theorem removeCangwRule_total (k : Kernel) (rules : List (String × String)) (src dst : String)
    (htotal : ∀ c, ∃ r, k.exec c = some r) :
    ∃ t, removeCangwRule k rules src dst = some (eraseFirstPair rules (src, dst), t) := by
  by_cases hmem : (src, dst) ∈ rules
  · obtain ⟨r1, hr1⟩ := htotal (cangwDelCmd src dst false)
    obtain ⟨r2, hr2⟩ := htotal (cangwDelCmd src dst true)
    exact ⟨[cangwDelCmd src dst false, cangwDelCmd src dst true],
           by simp [removeCangwRule, hmem, hr1, hr2]⟩
  · refine ⟨[], ?_⟩
    rw [eraseFirstPair_of_not_mem rules (src, dst) hmem]
    simp [removeCangwRule, hmem]

theorem detachLoop_total (k : Kernel) (epuid epdev : String)
    (htotal : ∀ c, ∃ r, k.exec c = some r) :
    ∀ (eps : List (String × Endpoint)) (rules : List (String × String)),
      ∃ t, detachLoop k epuid epdev eps rules =
        some (List.foldl eraseFirstPair rules (crossRemoveSeq epuid epdev eps), t) := by
  intro eps
  induction eps with
  | nil =>
    intro rules
    exact ⟨[], by simp [detachLoop, crossRemoveSeq]⟩
  | cons hd rest ih =>
    intro rules
    obtain ⟨uid, endpt⟩ := hd
    by_cases huid : uid = epuid
    · obtain ⟨t, ht⟩ := ih rules
      exact ⟨t, by simpa [detachLoop, crossRemoveSeq, huid] using ht⟩
    · obtain ⟨t1, ht1⟩ := removeCangwRule_total k rules endpt.device epdev htotal
      obtain ⟨t2, ht2⟩ := removeCangwRule_total k
          (eraseFirstPair rules (endpt.device, epdev)) epdev endpt.device htotal
      obtain ⟨t3, ht3⟩ := ih
          (eraseFirstPair (eraseFirstPair rules (endpt.device, epdev)) (epdev, endpt.device))
      refine ⟨t1 ++ t2 ++ t3, ?_⟩
      simp [detachLoop, crossRemoveSeq, huid, ht1, ht2, ht3]

theorem detach_char (k : Kernel) (n : Network) (epuid : String) (e : Endpoint)
    (he : listLookup n.endpoint_list epuid = some e)
    (htotal : ∀ c, ∃ r, k.exec c = some r) :
    ∃ t, Network.endpoint_detach k n epuid =
      some ({ n with rules_list := (List.foldl eraseFirstPair n.rules_list
                (detachRemoveSeq epuid e.device n.ifc n.endpoint_list)) }, t) := by
  obtain ⟨t1, ht1⟩ := detachLoop_total k epuid e.device htotal n.endpoint_list n.rules_list
  obtain ⟨t2, ht2⟩ := removeCangwRule_total k
      (List.foldl eraseFirstPair n.rules_list (crossRemoveSeq epuid e.device n.endpoint_list))
      e.device n.ifc htotal
  obtain ⟨t3, ht3⟩ := removeCangwRule_total k
      (eraseFirstPair (List.foldl eraseFirstPair n.rules_list
        (crossRemoveSeq epuid e.device n.endpoint_list)) (e.device, n.ifc))
      n.ifc e.device htotal
  refine ⟨t1 ++ t2 ++ t3, ?_⟩
  unfold Network.endpoint_detach
  rw [he]
  simp [ht1, ht2, ht3, detachRemoveSeq, List.foldl_append]

theorem crossPairs_eq_crossRemoveSeq (k : Kernel) (epuid epdev : String)
    (eps : List (String × Endpoint))
    (hothers : ∀ uid ed, (uid, ed) ∈ eps → uid ≠ epuid →
      Endpoint.interface_exists k ed = true) :
    crossPairs k epuid epdev eps = crossRemoveSeq epuid epdev eps := by
  induction eps with
  | nil => rfl
  | cons hd rest ih =>
    obtain ⟨uid, endpt⟩ := hd
    have hrest : ∀ uid ed, (uid, ed) ∈ rest → uid ≠ epuid →
        Endpoint.interface_exists k ed = true := by
      intro u ed hm hne
      exact hothers u ed (List.mem_cons_of_mem _ hm) hne
    by_cases huid : uid = epuid
    · simp [crossPairs, crossRemoveSeq, huid, ih hrest]
    · have hex : Endpoint.interface_exists k endpt = true :=
        hothers uid endpt (List.mem_cons_self _ _) huid
      simp [crossPairs, crossRemoveSeq, huid, hex, ih hrest]

theorem attach_fields (k : Kernel) (n : Network) (epuid ns pr : String)
    (res : RustResult JoinResponse) (n' : Network) (tr : List (List String))
    (h : Network.endpoint_attach k n epuid ns pr = some (res, n', tr)) :
    n'.device = n.device ∧ n'.peer = n.peer ∧ n'.canid = n.canid ∧ n'.ifc = n.ifc := by
  unfold Network.endpoint_attach at h
  split at h
  case _ tr0 heqnet =>
    simp only [Option.some.injEq, Prod.mk.injEq] at h
    obtain ⟨-, h2, -⟩ := h
    subst h2
    simp
  case _ n1 tr0 heqnet =>
    obtain ⟨hd, hp, hc, hi, hel, hrl⟩ := ensure_net_fields k n n1 tr0 heqnet
    split at h
    · simp only [Option.some.injEq, Prod.mk.injEq] at h
      obtain ⟨-, h2, -⟩ := h
      subst h2
      exact ⟨hd, hp, hc, hi⟩
    · rename_i ep0 heqep0
      split at h
      case _ tr1 heqens =>
        simp only [Option.some.injEq, Prod.mk.injEq] at h
        obtain ⟨-, h2, -⟩ := h
        subst h2
        exact ⟨hd, hp, hc, hi⟩
      case _ b ep1 tr1 heqens =>
        simp only [listLookup_listInsert_self] at h
        split at h
        · exact absurd h (by simp)
        · rename_i r1 t1 heq1
          split at h
          · exact absurd h (by simp)
          · rename_i r2 t2 heq2
            split at h
            · exact absurd h (by simp)
            · rename_i r3 t3 heq3
              simp only [Option.some.injEq, Prod.mk.injEq] at h
              obtain ⟨-, h2, -⟩ := h
              subst h2
              exact ⟨hd, hp, hc, hi⟩

theorem attach_ok_rsp (k : Kernel) (n : Network) (epuid ns pr : String) (e : Endpoint)
    (rsp : JoinResponse) (n' : Network) (tr : List (List String))
    (he : listLookup n.endpoint_list epuid = some e)
    (h : Network.endpoint_attach k n epuid ns pr = some (RustResult.ok rsp, n', tr)) :
    rsp = { srcName := e.peer, dstPref := if pr = "" then n.peer else pr } := by
  unfold Network.endpoint_attach at h
  split at h
  case _ tr0 heqnet =>
    simp at h
  case _ n1 tr0 heqnet =>
    obtain ⟨hd, hp, hc, hi, hel, hrl⟩ := ensure_net_fields k n n1 tr0 heqnet
    split at h
    · simp at h
    · rename_i ep0 heqep0
      rw [hel, he] at heqep0
      have hep0 : ep0 = e := by
        simpa using heqep0.symm
      subst hep0
      split at h
      case _ tr1 heqens =>
        simp at h
      case _ b ep1 tr1 heqens =>
        obtain ⟨hu, hdev, hpeer⟩ := ensure_ep_fields k ep0 b ep1 tr1 heqens
        simp only [listLookup_listInsert_self] at h
        split at h
        · exact absurd h (by simp)
        · rename_i r1 t1 heq1
          split at h
          · exact absurd h (by simp)
          · rename_i r2 t2 heq2
            split at h
            · exact absurd h (by simp)
            · rename_i r3 t3 heq3
              simp only [Option.some.injEq, Prod.mk.injEq, RustResult.ok.injEq] at h
              obtain ⟨h1, -, -⟩ := h
              rw [← h1, hpeer, hp]

theorem endpoint_new_names (k : Kernel) (uid : String) (e : Endpoint)
    (tr : List (List String)) (h : Endpoint.new k uid = some (e, tr)) :
    e.uid = uid ∧ e.device = vxcanDevName uid ∧ e.peer = e.device ++ "p" := by
  unfold Endpoint.new at h
  split at h
  · exact absurd h (by simp)
  · dsimp only at h
    split at h
    · simp only [Option.some.injEq, Prod.mk.injEq] at h
      obtain ⟨h1, -⟩ := h
      subst h1
      simp [vxcanDevName]
    · split at h
      · exact absurd h (by simp)
      · split at h
        · exact absurd h (by simp)
        · simp only [Option.some.injEq, Prod.mk.injEq] at h
          obtain ⟨h1, -⟩ := h
          subst h1
          simp [vxcanDevName]

theorem network_new_fields (k : Kernel) (d p c : String) (nw : Network)
    (tr : List (List String)) (h : Network.new k d p c = some (nw, tr)) :
    nw.device = d ∧ nw.peer = p ∧ nw.canid = c ∧ nw.ifc = d ++ c ∧
    nw.endpoint_list = [] ∧ nw.rules_list = [] := by
  unfold Network.new at h
  split at h
  · exact absurd h (by simp)
  · dsimp only at h
    split at h
    · simp only [Option.some.injEq, Prod.mk.injEq] at h
      obtain ⟨h1, -⟩ := h
      subst h1
      simp
    · split at h
      · exact absurd h (by simp)
      · split at h
        · exact absurd h (by simp)
        · simp only [Option.some.injEq, Prod.mk.injEq] at h
          obtain ⟨h1, -⟩ := h
          subst h1
          simp

/-- C9: `Endpoint::new(uid)` sets `device` to "vxcan" followed by `uid`
byte-truncated to 8 bytes on a UTF-8 character boundary (a prefix of at
most 8 bytes, all of `uid` when `uid` is at most 8 bytes, and maximal among
fitting prefixes), and `peer = device ++ "p"`; `Network::new` computes the
bus name `ifc = device ++ canid`. -/
theorem c9_name_derivation (k k' : Kernel) (uid d p c : String) (e : Endpoint)
    (nw : Network) (tr tr' : List (List String))
    (he : Endpoint.new k uid = some (e, tr))
    (hn : Network.new k' d p c = some (nw, tr')) :
    e.device = "vxcan" ++ truncateToByteOffset uid 8 ∧
    e.peer = e.device ++ "p" ∧
    (∃ rest, uid.data = (truncateToByteOffset uid 8).data ++ rest) ∧
    charsByteLen (truncateToByteOffset uid 8).data ≤ 8 ∧
    (charsByteLen uid.data ≤ 8 → truncateToByteOffset uid 8 = uid) ∧
    (∀ t r, uid.data = t ++ r → charsByteLen t ≤ 8 →
      ∃ rest, (truncateToByteOffset uid 8).data = t ++ rest) ∧
    nw.ifc = d ++ c := by
  obtain ⟨hu, hdev, hpeer⟩ := endpoint_new_names k uid e tr he
  obtain ⟨-, -, -, hifc, -, -⟩ := network_new_fields k' d p c nw tr' hn
  refine ⟨by simpa [vxcanDevName] using hdev, hpeer, ?_, ?_, ?_, ?_, hifc⟩
  · obtain ⟨t, ht⟩ := truncChars_append 8 uid.data
    exact ⟨t, by simpa [truncateToByteOffset] using ht⟩
  · simpa [truncateToByteOffset] using truncChars_byteLen 8 uid.data
  · intro hle
    have hh := truncChars_of_byteLen_le 8 uid.data hle
    simp [truncateToByteOffset, hh]
  · intro t r htr hle
    obtain ⟨rest, hrest⟩ := truncChars_max 8 uid.data t r htr hle
    exact ⟨rest, by simpa [truncateToByteOffset] using hrest⟩

/-- Witness for C9 at a concrete kernel, uid and network. -/
theorem c9_witness :
    Endpoint.new kOk "AAAAAAAAAA" = some (eAAA, []) ∧
    Network.new kOk "vx" "vxp" "9" = some (nW9, trW9) ∧
    (eAAA.device = "vxcan" ++ truncateToByteOffset "AAAAAAAAAA" 8 ∧
     eAAA.peer = eAAA.device ++ "p" ∧
     (∃ rest, ("AAAAAAAAAA" : String).data =
        (truncateToByteOffset "AAAAAAAAAA" 8).data ++ rest) ∧
     charsByteLen (truncateToByteOffset "AAAAAAAAAA" 8).data ≤ 8 ∧
     (charsByteLen ("AAAAAAAAAA" : String).data ≤ 8 →
        truncateToByteOffset "AAAAAAAAAA" 8 = "AAAAAAAAAA") ∧
     (∀ t r, ("AAAAAAAAAA" : String).data = t ++ r → charsByteLen t ≤ 8 →
        ∃ rest, (truncateToByteOffset "AAAAAAAAAA" 8).data = t ++ rest) ∧
     nW9.ifc = "vx" ++ "9") :=
  ⟨by decide, by decide,
   c9_name_derivation kOk kOk "AAAAAAAAAA" "vx" "vxp" "9" eAAA nW9 [] trW9
     (by decide) (by decide)⟩

/-- C4 counterexample: in `kBadExit` the pair-add command exits 2 with a
stderr that does not contain "File exists", yet `Endpoint::new` does not
fail at all: it returns an endpoint (with `created = true`) because the
source never inspects the exit status of either command. -/
theorem c4_counterexample :
    kBadExit.exec (vxcanAddCmd "vxcanAAAAAAAA" "vxcanAAAAAAAAp") =
      some { exitCode := 2, stderr := "RTNETLINK answers: Operation not permitted" } ∧
    (2 : Nat) ≠ 0 ∧
    strContains "RTNETLINK answers: Operation not permitted" "File exists" = false ∧
    Endpoint.new kBadExit "AAAAAAAAAA" =
      some (eAAAcreated,
            [vxcanAddCmd "vxcanAAAAAAAA" "vxcanAAAAAAAAp", linkUpCmd "vxcanAAAAAAAA"]) := by
  refine ⟨by decide, by decide, by decide, by decide⟩

/-- C4 amended: `Endpoint::new` never inspects exit codes or stderr (so it
cannot fail with `KernelCommandFailed` on a non-zero exit, with or without
the "File exists" sentinel); given the enumeration succeeds and both
commands can be spawned, it always returns an endpoint whose
`created_by_us` is determined solely by the pre-existence check. The
"File exists" absorption described by the claim lives in
`ensure_interface_exists`, not in `new`. -/
theorem c4_amended (k : Kernel) (uid : String) (l : List String)
    (hifcs : k.ifcs = some l)
    (htotal : ∀ c, ∃ r, k.exec c = some r) :
    ∃ tr, Endpoint.new k uid = some
        ({ uid := uid, device := vxcanDevName uid, peer := vxcanDevName uid ++ "p",
           created := if vxcanDevName uid ∈ l then false else true }, tr) ∧
      (vxcanDevName uid ∈ l → tr = []) ∧
      (vxcanDevName uid ∉ l →
        tr = [vxcanAddCmd (vxcanDevName uid) (vxcanDevName uid ++ "p"),
              linkUpCmd (vxcanDevName uid)]) := by
  by_cases hmem : vxcanDevName uid ∈ l
  · refine ⟨[], ?_, fun _ => rfl, fun hc => absurd hmem hc⟩
    have hmem' : ("vxcan" ++ truncateToByteOffset uid 8) ∈ l := by
      simpa [vxcanDevName] using hmem
    simp [Endpoint.new, hifcs, hmem', vxcanDevName, hmem]
  · obtain ⟨r1, hr1⟩ := htotal (vxcanAddCmd (vxcanDevName uid) (vxcanDevName uid ++ "p"))
    obtain ⟨r2, hr2⟩ := htotal (linkUpCmd (vxcanDevName uid))
    refine ⟨[vxcanAddCmd (vxcanDevName uid) (vxcanDevName uid ++ "p"),
             linkUpCmd (vxcanDevName uid)], ?_, fun hc => absurd hc hmem, fun _ => rfl⟩
    have hmem' : ¬ ("vxcan" ++ truncateToByteOffset uid 8) ∈ l := by
      simpa [vxcanDevName] using hmem
    simp only [Endpoint.new, hifcs]
    simp [hmem', vxcanDevName, hmem] at hr1 hr2 ⊢
    simp [hr1, hr2]

/-- Witness for C4 at the concrete kernel `kBadExit`. -/
theorem c4_witness :
    kBadExit.ifcs = some [] ∧
    (∃ tr, Endpoint.new kBadExit "AAAAAAAAAA" = some
        ({ uid := "AAAAAAAAAA", device := vxcanDevName "AAAAAAAAAA",
           peer := vxcanDevName "AAAAAAAAAA" ++ "p",
           created := if vxcanDevName "AAAAAAAAAA" ∈ ([] : List String) then false else true },
         tr) ∧
      (vxcanDevName "AAAAAAAAAA" ∈ ([] : List String) → tr = []) ∧
      (vxcanDevName "AAAAAAAAAA" ∉ ([] : List String) →
        tr = [vxcanAddCmd (vxcanDevName "AAAAAAAAAA") (vxcanDevName "AAAAAAAAAA" ++ "p"),
              linkUpCmd (vxcanDevName "AAAAAAAAAA")])) :=
  ⟨rfl, c4_amended kBadExit "AAAAAAAAAA" [] rfl (fun c => ⟨_, rfl⟩)⟩

theorem dropRun_shape (k : Kernel) (e : Endpoint) (tr : List (List String))
    (h : Endpoint.dropRun k e = some tr) :
    tr = if e.created then [linkDownCmd e.device, vxcanDelCmd e.device] else [] := by
  unfold Endpoint.dropRun at h
  repeat' split at h
  all_goals simp_all

/-- C2 counterexample: inserting an endpoint over an existing entry whose
`created` flag is set makes `HashMap::insert` drop the displaced value,
whose `Drop` issues the `ip link set down` / `ip link del` teardown
commands — contradicting "issues no kernel command whatsoever". -/
theorem c2_counterexample :
    listLookup nColl.endpoint_list "E" = some eColl ∧
    eColl.created = true ∧
    Network.endpoint_add kOk nColl eCollNew =
      some ({ nColl with endpoint_list := [("E", eCollNew)] },
            [linkDownCmd "vxcanE", vxcanDelCmd "vxcanE"]) ∧
    ([linkDownCmd "vxcanE", vxcanDelCmd "vxcanE"] : List (List String)) ≠ [] := by
  refine ⟨by decide, by decide, by decide, by decide⟩

/-- C2 amended: `endpoint_add(ep)` inserts `ep` under `ep.uid`, overwriting
on collision (last writer wins), and issues no kernel command — except
when the displaced entry has `created = true`, in which case the displaced
endpoint's `Drop` issues exactly its two teardown commands. -/
theorem c2_amended (k : Kernel) (n : Network) (ep : Endpoint)
    (res : Network × List (List String))
    (h : Network.endpoint_add k n ep = some res) :
    res.1.endpoint_list = listInsert n.endpoint_list ep.uid ep ∧
    listLookup res.1.endpoint_list ep.uid = some ep ∧
    res.1.rules_list = n.rules_list ∧
    (listLookup n.endpoint_list ep.uid = none → res.2 = []) ∧
    (∀ old, listLookup n.endpoint_list ep.uid = some old → old.created = false →
      res.2 = []) ∧
    (∀ old, listLookup n.endpoint_list ep.uid = some old → old.created = true →
      res.2 = [linkDownCmd old.device, vxcanDelCmd old.device]) := by
  unfold Network.endpoint_add at h
  split at h
  case _ old hold =>
    split at h
    · exact absurd h (by simp)
    · rename_i tr htr
      simp only [Option.some.injEq] at h
      subst h
      have hshape := dropRun_shape k old tr htr
      refine ⟨rfl, listLookup_listInsert_self _ _ _, rfl, ?_, ?_, ?_⟩
      · intro hc
        rw [hold] at hc
        exact absurd hc (by simp)
      · intro old' hold' hcr
        rw [hold] at hold'
        obtain rfl : old = old' := by simpa using hold'
        simpa [hcr] using hshape
      · intro old' hold' hcr
        rw [hold] at hold'
        obtain rfl : old = old' := by simpa using hold'
        simpa [hcr] using hshape
  case _ hold =>
    simp only [Option.some.injEq] at h
    subst h
    refine ⟨rfl, listLookup_listInsert_self _ _ _, rfl, fun _ => rfl, ?_, ?_⟩
    · intro old' hold' hcr
      rw [hold] at hold'
    · intro old' hold' hcr
      rw [hold] at hold'
      exact absurd hold' (by simp)

/-- Witness for C2 at a concrete collision-free input. -/
theorem c2_witness :
    Network.endpoint_add kOk nNoEp eAAA = some
      ({ nNoEp with endpoint_list := [("AAAAAAAAAA", eAAA)] }, []) ∧
    ({ nNoEp with endpoint_list := [("AAAAAAAAAA", eAAA)] },
      ([] : List (List String))).1.endpoint_list =
      listInsert nNoEp.endpoint_list eAAA.uid eAAA :=
  ⟨by decide,
   (c2_amended kOk nNoEp eAAA
     ({ nNoEp with endpoint_list := [("AAAAAAAAAA", eAAA)] }, []) (by decide)).1⟩

/-- C10: when the vxcan pair-add of `ensure_interface_exists` fails with a
stderr containing "File exists", the function returns `Ok(false)`
immediately: the link-up command is never issued and `created` is left
untouched; the surrounding `endpoint_attach` nevertheless succeeds. -/
theorem c10_race_skips_link_up (k : Kernel) (n : Network) (epuid ns pr : String)
    (e : Endpoint) (r : CmdResult)
    (hifc : ifExists k n.ifc = true)
    (he : listLookup n.endpoint_list epuid = some e)
    (habs : ifExists k e.device = false)
    (hx : k.exec (vxcanAddCmd e.device e.peer) = some r)
    (hcode : r.exitCode ≠ 0)
    (hsent : strContains r.stderr "File exists" = true)
    (htotal : ∀ c, ∃ rr, k.exec c = some rr) :
    Endpoint.ensure_interface_exists k e =
      (RustResult.ok (false, e), [vxcanAddCmd e.device e.peer]) ∧
    ∃ n' t, Network.endpoint_attach k n epuid ns pr =
        some (RustResult.ok { srcName := e.peer, dstPref := if pr = "" then n.peer else pr },
              n', [vxcanAddCmd e.device e.peer] ++ t) ∧
      linkUpCmd e.device ∉ ([vxcanAddCmd e.device e.peer] ++ t) ∧
      listLookup n'.endpoint_list epuid = some e := by
  have hens := ensure_ep_file_exists k e r habs hx hcode hsent
  obtain ⟨t, hat, hall⟩ := attach_ok_char k n epuid ns pr e
    [vxcanAddCmd e.device e.peer] hifc he hens htotal
  refine ⟨hens, _, t, hat, ?_, ?_⟩
  · intro hmem
    rcases List.mem_cons.mp hmem with hcon | hmem'
    · simp [linkUpCmd, vxcanAddCmd] at hcon
    · obtain ⟨s, d, b, hb⟩ := hall _ hmem'
      simp [linkUpCmd, cangwAddCmd] at hb
  · simpa using he

/-- Witness for C10 at the concrete kernel `kRace` and network `nOne`. -/
theorem c10_witness :
    ifExists kRace nOne.ifc = true ∧
    listLookup nOne.endpoint_list "AAAAAAAAAA" = some eAAA ∧
    ifExists kRace eAAA.device = false ∧
    kRace.exec (vxcanAddCmd eAAA.device eAAA.peer) =
      some { exitCode := 2, stderr := "RTNETLINK answers: File exists" } ∧
    (Endpoint.ensure_interface_exists kRace eAAA =
      (RustResult.ok (false, eAAA), [vxcanAddCmd eAAA.device eAAA.peer]) ∧
    ∃ n' t, Network.endpoint_attach kRace nOne "AAAAAAAAAA" "" "" =
        some (RustResult.ok { srcName := eAAA.peer,
                              dstPref := if "" = "" then nOne.peer else "" },
              n', [vxcanAddCmd eAAA.device eAAA.peer] ++ t) ∧
      linkUpCmd eAAA.device ∉ ([vxcanAddCmd eAAA.device eAAA.peer] ++ t) ∧
      listLookup n'.endpoint_list "AAAAAAAAAA" = some eAAA) :=
  ⟨by decide, by decide, by decide, by decide,
   c10_race_skips_link_up kRace nOne "AAAAAAAAAA" "" "" eAAA
     { exitCode := 2, stderr := "RTNETLINK answers: File exists" }
     (by decide) (by decide) (by decide) (by decide) (by decide) (by decide)
     (fun c => ⟨_, rfl⟩)⟩

/-- C1 counterexample: with the endpoint and every referenced interface
present, attaching twice returns the same `JoinResponse` but does NOT
produce the same final rules list as a list: `add_cangw_rule` pushes
unconditionally, so the second attach appends a duplicate copy of each
bus rule. -/
theorem c1_counterexample :
    Network.endpoint_attach kOk nOne "AAAAAAAAAA" "" "" =
      some (RustResult.ok { srcName := "vxcanAAAAAAAAp", dstPref := "vcanp" },
            nOneR1, tBusA) ∧
    Network.endpoint_attach kOk nOneR1 "AAAAAAAAAA" "" "" =
      some (RustResult.ok { srcName := "vxcanAAAAAAAAp", dstPref := "vcanp" },
            nOneR2, tBusA) ∧
    nOneR2.rules_list ≠ nOneR1.rules_list := by
  refine ⟨by decide, by decide, by decide⟩

/-- C1 amended: under the claim's hypotheses a double attach returns the
same `JoinResponse` twice and yields the same rules SET (membership is
unchanged), but as a list the second attach appends one more copy of every
pair it installs. -/
theorem c1_amended (k : Kernel) (n : Network) (epuid ns pr : String) (e : Endpoint)
    (hifc : ifExists k n.ifc = true)
    (he : listLookup n.endpoint_list epuid = some e)
    (hdev : ifExists k e.device = true)
    (htotal : ∀ c, ∃ r, k.exec c = some r) :
    ∃ rsp n1 t1 n2 t2,
      Network.endpoint_attach k n epuid ns pr = some (RustResult.ok rsp, n1, t1) ∧
      Network.endpoint_attach k n1 epuid ns pr = some (RustResult.ok rsp, n2, t2) ∧
      (∀ q, q ∈ n2.rules_list ↔ q ∈ n1.rules_list) ∧
      n2.rules_list = n1.rules_list ++
        attachAddedPairs k n.ifc epuid e.device n.endpoint_list := by
  have hens := ensure_ep_of_present k e hdev
  obtain ⟨t1, hat1, -⟩ := attach_ok_char k n epuid ns pr e [] hifc he hens htotal
  obtain ⟨t2, hat2, -⟩ := attach_ok_char k
    { n with rules_list := n.rules_list ++
        attachAddedPairs k n.ifc epuid e.device n.endpoint_list }
    epuid ns pr e [] hifc he hens htotal
  refine ⟨_, _, _, _, _, hat1, hat2, ?_, rfl⟩
  intro q
  simp only [List.mem_append]
  tauto

/-- Witness for C1 at the concrete kernel `kOk` and network `nOne`. -/
theorem c1_witness :
    ifExists kOk nOne.ifc = true ∧
    listLookup nOne.endpoint_list "AAAAAAAAAA" = some eAAA ∧
    ifExists kOk eAAA.device = true ∧
    (∃ rsp n1 t1 n2 t2,
      Network.endpoint_attach kOk nOne "AAAAAAAAAA" "" "" =
        some (RustResult.ok rsp, n1, t1) ∧
      Network.endpoint_attach kOk n1 "AAAAAAAAAA" "" "" =
        some (RustResult.ok rsp, n2, t2) ∧
      (∀ q, q ∈ n2.rules_list ↔ q ∈ n1.rules_list) ∧
      n2.rules_list = n1.rules_list ++
        attachAddedPairs kOk nOne.ifc "AAAAAAAAAA" eAAA.device nOne.endpoint_list) :=
  ⟨by decide, by decide, by decide,
   c1_amended kOk nOne "AAAAAAAAAA" "" "" eAAA (by decide) (by decide) (by decide)
     (fun c => ⟨_, rfl⟩)⟩

/-- C5 counterexample: `N1` is in the manager map and `AAAAAAAAAA` is not
in its endpoint map, yet `NetworkManager::endpoint_attach` does not fail:
the reboot-resilience path recreates the endpoint and the attach succeeds
with an `Ok` join response. -/
theorem c5_counterexample :
    listLookup stOneNet.network_list "N1" = some nNoEp ∧
    listLookup nNoEp.endpoint_list "AAAAAAAAAA" = none ∧
    Option.map (fun x => x.1)
        (ManagerState.endpoint_attach kOk stOneNet "N1" "AAAAAAAAAA" "" OptionsBlob.invalid) =
      some (RustResult.ok { srcName := "vxcanAAAAAAAAp", dstPref := "vcanp" }) := by
  refine ⟨by decide, by decide, by decide⟩

/-- C5 amended: the `EndpointNotFound` failure lives in
`Network::endpoint_attach`: called directly with an `epuid` absent from the
endpoint map (and the bus present) it returns the error and leaves the
network untouched. `NetworkManager::endpoint_attach` instead recreates the
missing endpoint before attaching and does not surface this error. -/
theorem c5_amended (k : Kernel) (n : Network) (epuid ns pr : String)
    (hifc : ifExists k n.ifc = true)
    (habs : listLookup n.endpoint_list epuid = none) :
    Network.endpoint_attach k n epuid ns pr = some (RustResult.err, n, []) := by
  unfold Network.endpoint_attach
  rw [ensure_net_of_present k n hifc]
  simp [habs]

/-- Witness for C5 at the concrete network `nNoEp`. -/
theorem c5_witness :
    ifExists kOk nNoEp.ifc = true ∧
    listLookup nNoEp.endpoint_list "AAAAAAAAAA" = none ∧
    Network.endpoint_attach kOk nNoEp "AAAAAAAAAA" "" "" =
      some (RustResult.err, nNoEp, []) :=
  ⟨by decide, by decide,
   c5_amended kOk nNoEp "AAAAAAAAAA" "" "" (by decide) (by decide)⟩

/-- C6: a successful manager attach returns `SrcName = e.peer` and
`DstPrefix` equal to the non-empty `vxcan.peer` override from the options
blob, or the network's default peer otherwise; an unparseable blob yields
the empty override and hence the network default. -/
theorem c6_join_response (k : Kernel) (st : ManagerState) (nuid epuid sbox : String)
    (blob : OptionsBlob) (n : Network) (e : Endpoint) (rsp : JoinResponse)
    (st' : ManagerState) (tr : List (List String))
    (hn : listLookup st.network_list nuid = some n)
    (he : listLookup n.endpoint_list epuid = some e)
    (h : ManagerState.endpoint_attach k st nuid epuid sbox blob =
      some (RustResult.ok rsp, st', tr)) :
    rsp = { srcName := e.peer,
            dstPref := if peerFromOptions blob = "" then n.peer
                       else peerFromOptions blob } ∧
    peerFromOptions OptionsBlob.invalid = "" := by
  refine ⟨?_, rfl⟩
  unfold ManagerState.endpoint_attach at h
  rw [hn] at h
  dsimp only at h
  rw [hn] at h
  dsimp only at h
  rw [he] at h
  dsimp only at h
  unfold ManagerState.attachFinish at h
  rw [hn] at h
  dsimp only at h
  split at h
  · exact absurd h (by simp)
  · rename_i res n1 tr1 heq
    simp only [Option.some.injEq, Prod.mk.injEq] at h
    obtain ⟨h1, -, -⟩ := h
    subst h1
    exact attach_ok_rsp k n epuid "" (peerFromOptions blob) e rsp n1 tr1 he heq

/-- Witness for C6 at a concrete manager state with a peer override. -/
theorem c6_witness :
    listLookup stC6.network_list "N1" = some nOne ∧
    listLookup nOne.endpoint_list "AAAAAAAAAA" = some eAAA ∧
    ManagerState.endpoint_attach kOk stC6 "N1" "AAAAAAAAAA" "" blobC6 =
      some (RustResult.ok { srcName := "vxcanAAAAAAAAp", dstPref := "can42" },
            stC6fin, tBusA) ∧
    (({ srcName := "vxcanAAAAAAAAp", dstPref := "can42" } : JoinResponse) =
       { srcName := eAAA.peer,
         dstPref := if peerFromOptions blobC6 = "" then nOne.peer
                    else peerFromOptions blobC6 } ∧
     peerFromOptions OptionsBlob.invalid = "") :=
  ⟨by decide, by decide, by decide,
   c6_join_response kOk stC6 "N1" "AAAAAAAAAA" "" blobC6 nOne eAAA
     { srcName := "vxcanAAAAAAAAp", dstPref := "can42" } stC6fin tBusA
     (by decide) (by decide) (by decide)⟩

/-- C7 counterexample: starting from two attaches (A then B), a further
attach of A followed by a detach of A does NOT restore the rules list
exactly: removal deletes the first occurrence of each pair, so pre-existing
duplicates shift and the resulting list differs in order, although it is a
permutation of the pre-attach list. -/
theorem c7_counterexample :
    Option.map (fun x => x.2.1) (Network.endpoint_attach kOk nTwo "A" "" "") =
      some nTwo1 ∧
    Option.map (fun x => x.2.1) (Network.endpoint_attach kOk nTwo1 "B" "" "") =
      some nTwo2 ∧
    Option.map (fun x => x.2.1) (Network.endpoint_attach kOk nTwo2 "A" "" "") =
      some nTwo3 ∧
    Option.map Prod.fst (Network.endpoint_detach kOk nTwo3 "A") = some nTwo4 ∧
    nTwo4.rules_list ≠ nTwo2.rules_list ∧
    List.Perm nTwo4.rules_list nTwo2.rules_list := by
  refine ⟨by decide, by decide, by decide, by decide, by decide, by decide⟩

/-- C7 amended: attach followed by detach (with every other endpoint's
device present during the attach) restores `rules` as a multiset — the
result is a permutation of the pre-attach list, and exact list equality can
fail when pairs being added were already present. -/
theorem c7_amended (k : Kernel) (n : Network) (epuid ns pr : String) (e : Endpoint)
    (hifc : ifExists k n.ifc = true)
    (he : listLookup n.endpoint_list epuid = some e)
    (hdev : ifExists k e.device = true)
    (hothers : ∀ p ∈ n.endpoint_list, p.1 ≠ epuid →
      Endpoint.interface_exists k p.2 = true)
    (htotal : ∀ c, ∃ r, k.exec c = some r) :
    ∃ rsp n1 t1 n2 t2,
      Network.endpoint_attach k n epuid ns pr = some (RustResult.ok rsp, n1, t1) ∧
      Network.endpoint_detach k n1 epuid = some (n2, t2) ∧
      List.Perm n2.rules_list n.rules_list ∧
      n2.endpoint_list = n.endpoint_list := by
  have hens := ensure_ep_of_present k e hdev
  obtain ⟨t1, hat, -⟩ := attach_ok_char k n epuid ns pr e [] hifc he hens htotal
  obtain ⟨t2, hdet⟩ := detach_char k
    { n with rules_list := n.rules_list ++
        attachAddedPairs k n.ifc epuid e.device n.endpoint_list }
    epuid e he htotal
  refine ⟨_, _, _, _, t2, hat, hdet, ?_, rfl⟩
  have hcross : crossPairs k epuid e.device n.endpoint_list
      = crossRemoveSeq epuid e.device n.endpoint_list :=
    crossPairs_eq_crossRemoveSeq k epuid e.device n.endpoint_list
      (fun uid ed hm hne => hothers (uid, ed) hm hne)
  apply foldl_eraseFirstPair_perm
  show List.Perm
    (n.rules_list ++ attachAddedPairs k n.ifc epuid e.device n.endpoint_list)
    (n.rules_list ++ detachRemoveSeq epuid e.device n.ifc n.endpoint_list)
  apply List.Perm.append_left
  rw [attachAddedPairs, hcross, detachRemoveSeq]
  have hsw : List.Perm
      [(n.ifc, e.device), (e.device, n.ifc)]
      [(e.device, n.ifc), (n.ifc, e.device)] :=
    List.Perm.swap _ _ _
  have hcomm : List.Perm
      ([(n.ifc, e.device), (e.device, n.ifc)] ++
        crossRemoveSeq epuid e.device n.endpoint_list)
      (crossRemoveSeq epuid e.device n.endpoint_list ++
        [(n.ifc, e.device), (e.device, n.ifc)]) :=
    List.perm_append_comm
  exact hcomm.trans (List.Perm.append_left _ hsw)

/-- Witness for C7 at the concrete two-endpoint network `nTwo`. -/
theorem c7_witness :
    ifExists kOk nTwo.ifc = true ∧
    listLookup nTwo.endpoint_list "A" = some eVa ∧
    ifExists kOk eVa.device = true ∧
    (∀ p ∈ nTwo.endpoint_list, p.1 ≠ "A" →
      Endpoint.interface_exists kOk p.2 = true) ∧
    (∃ rsp n1 t1 n2 t2,
      Network.endpoint_attach kOk nTwo "A" "" "" = some (RustResult.ok rsp, n1, t1) ∧
      Network.endpoint_detach kOk n1 "A" = some (n2, t2) ∧
      List.Perm n2.rules_list nTwo.rules_list ∧
      n2.endpoint_list = nTwo.endpoint_list) :=
  ⟨by decide, by decide, by decide, by decide,
   c7_amended kOk nTwo "A" "" "" eVa (by decide) (by decide) (by decide) (by decide)
     (fun c => ⟨_, rfl⟩)⟩

/-- C8 counterexample: with `N1` absent from the manager map and the
device absent from the kernel, `endpoint_create` is NOT a no-op on the
kernel: `Endpoint::new` runs before the network lookup (creating the vxcan
pair and bringing it up) and the fresh endpoint is then dropped (tearing
the pair down), four commands in total; the manager map is unchanged. -/
theorem c8_counterexample :
    listLookup stEmpty.network_list "N1" = none ∧
    ManagerState.endpoint_create kEmpty stEmpty "N1" "AAAAAAAAAA" =
      some (stEmpty,
        [vxcanAddCmd "vxcanAAAAAAAA" "vxcanAAAAAAAAp", linkUpCmd "vxcanAAAAAAAA",
         linkDownCmd "vxcanAAAAAAAA", vxcanDelCmd "vxcanAAAAAAAA"]) ∧
    ([vxcanAddCmd "vxcanAAAAAAAA" "vxcanAAAAAAAAp", linkUpCmd "vxcanAAAAAAAA",
      linkDownCmd "vxcanAAAAAAAA", vxcanDelCmd "vxcanAAAAAAAA"] : List (List String)) ≠ [] := by
  refine ⟨rfl, by decide, by decide⟩

/-- C8 amended: with the network absent the manager state is unchanged,
but `endpoint_create` is a kernel no-op only when the endpoint device
already exists; otherwise the vxcan pair is created, brought up, and then
immediately torn down by the displaced endpoint's `Drop`. -/
theorem c8_amended (k : Kernel) (st : ManagerState) (nuid epuid : String) (l : List String)
    (habs : listLookup st.network_list nuid = none)
    (hifcs : k.ifcs = some l)
    (htotal : ∀ c, ∃ r, k.exec c = some r) :
    ∃ tr, ManagerState.endpoint_create k st nuid epuid = some (st, tr) ∧
      (vxcanDevName epuid ∈ l → tr = []) ∧
      (vxcanDevName epuid ∉ l →
        tr = [vxcanAddCmd (vxcanDevName epuid) (vxcanDevName epuid ++ "p"),
              linkUpCmd (vxcanDevName epuid),
              linkDownCmd (vxcanDevName epuid),
              vxcanDelCmd (vxcanDevName epuid)]) := by
  by_cases hmem : vxcanDevName epuid ∈ l
  · have hmem' : ("vxcan" ++ truncateToByteOffset epuid 8) ∈ l := by
      simpa [vxcanDevName] using hmem
    refine ⟨[], ?_, fun _ => rfl, fun hc => absurd hmem hc⟩
    unfold ManagerState.endpoint_create
    simp [Endpoint.new, hifcs, hmem', habs, Endpoint.dropRun]
  · have hmem' : ¬ ("vxcan" ++ truncateToByteOffset epuid 8) ∈ l := by
      simpa [vxcanDevName] using hmem
    obtain ⟨r1, hr1⟩ := htotal (vxcanAddCmd ("vxcan" ++ truncateToByteOffset epuid 8)
      (("vxcan" ++ truncateToByteOffset epuid 8) ++ "p"))
    obtain ⟨r2, hr2⟩ := htotal (linkUpCmd ("vxcan" ++ truncateToByteOffset epuid 8))
    obtain ⟨r3, hr3⟩ := htotal (linkDownCmd ("vxcan" ++ truncateToByteOffset epuid 8))
    obtain ⟨r4, hr4⟩ := htotal (vxcanDelCmd ("vxcan" ++ truncateToByteOffset epuid 8))
    refine ⟨_, ?_, fun hc => absurd hc hmem, fun _ => rfl⟩
    unfold ManagerState.endpoint_create
    simp only [Endpoint.new, hifcs, hmem', if_neg, if_false, hr1, hr2, habs,
      Endpoint.dropRun, if_pos, if_true, hr3, hr4, vxcanDevName]
    simp

/-- Witness for C8 at the concrete kernel `kEmpty` and empty manager. -/
theorem c8_witness :
    listLookup stEmpty.network_list "N1" = none ∧
    kEmpty.ifcs = some [] ∧
    (∃ tr, ManagerState.endpoint_create kEmpty stEmpty "N1" "AAAAAAAAAA" =
        some (stEmpty, tr) ∧
      (vxcanDevName "AAAAAAAAAA" ∈ ([] : List String) → tr = []) ∧
      (vxcanDevName "AAAAAAAAAA" ∉ ([] : List String) →
        tr = [vxcanAddCmd (vxcanDevName "AAAAAAAAAA") (vxcanDevName "AAAAAAAAAA" ++ "p"),
              linkUpCmd (vxcanDevName "AAAAAAAAAA"),
              linkDownCmd (vxcanDevName "AAAAAAAAAA"),
              vxcanDelCmd (vxcanDevName "AAAAAAAAAA")])) :=
  ⟨rfl, rfl,
   c8_amended kEmpty stEmpty "N1" "AAAAAAAAAA" [] rfl rfl (fun c => ⟨_, rfl⟩)⟩

theorem listInsert_listInsert {α : Type} (m : List (String × α)) (key : String) (a b : α) :
    listInsert (listInsert m key a) key b = listInsert m key b := by
  induction m with
  | nil => simp [listInsert]
  | cons hd tl ih =>
    obtain ⟨k, w⟩ := hd
    by_cases hk : k = key
    · simp [listInsert, hk]
    · simp [listInsert, hk, ih]

theorem endpoint_add_fields (k : Kernel) (n : Network) (ep : Endpoint)
    (res : Network × List (List String))
    (h : Network.endpoint_add k n ep = some res) :
    res.1.device = n.device ∧ res.1.peer = n.peer ∧ res.1.canid = n.canid ∧
    res.1.ifc = n.ifc := by
  unfold Network.endpoint_add at h
  split at h
  · split at h
    · exact absurd h (by simp)
    · rename_i tr1 htr1
      simp only [Option.some.injEq] at h
      subst h
      simp
  · simp only [Option.some.injEq] at h
    subst h
    simp

theorem syncOK_insert_same (st : ManagerState) (nuid : String) (n n' : Network)
    (hsync : syncOK st) (hn : listLookup st.network_list nuid = some n)
    (hcfg : configOf n' = configOf n) :
    syncOK { st with network_list := listInsert st.network_list nuid n' } := by
  obtain ⟨hf, hb⟩ := hsync
  constructor
  · intro key nn hkey
    by_cases hk : key = nuid
    · subst hk
      rw [listLookup_listInsert_self] at hkey
      obtain rfl : n' = nn := by simpa using hkey
      have hfile := hf key n hn
      simpa [hcfg] using hfile
    · rw [listLookup_listInsert_ne _ _ _ _ hk] at hkey
      exact hf key nn hkey
  · intro key cfg hkey
    by_cases hk : key = nuid
    · subst hk
      obtain ⟨n0, hn0, hcfg0⟩ := hb key cfg hkey
      rw [hn] at hn0
      obtain rfl : n = n0 := by simpa using hn0
      exact ⟨n', listLookup_listInsert_self _ _ _, by rw [hcfg0, hcfg]⟩
    · obtain ⟨n0, hn0, hcfg0⟩ := hb key cfg hkey
      exact ⟨n0, by rw [listLookup_listInsert_ne _ _ _ _ hk]; exact hn0, hcfg0⟩

theorem syncOK_attachFinish (k : Kernel) (st : ManagerState) (nuid epuid : String)
    (blob : OptionsBlob) (tr0 : List (List String)) (n : Network)
    (res : RustResult JoinResponse) (st' : ManagerState) (tr : List (List String))
    (hsync : syncOK st) (hn : listLookup st.network_list nuid = some n)
    (hat : ManagerState.attachFinish k st nuid epuid blob tr0 = some (res, st', tr)) :
    syncOK st' := by
  unfold ManagerState.attachFinish at hat
  rw [hn] at hat
  dsimp only at hat
  split at hat
  · exact absurd hat (by simp)
  · rename_i res2 n1 tr1 heq
    simp only [Option.some.injEq, Prod.mk.injEq] at hat
    obtain ⟨-, h2, -⟩ := hat
    subst h2
    obtain ⟨hd, hp, hc, hi⟩ :=
      attach_fields k n epuid "" (peerFromOptions blob) res2 n1 tr1 heq
    apply syncOK_insert_same st nuid n n1 hsync hn
    simp [configOf, hd, hp, hc]

/-- C3 counterexample: from a synchronized state (empty map, empty file),
`network_load` adopts an engine network with driver "rustyvxcan" into the
in-memory map but never writes the persistence file, so the file's key set
no longer equals the map's key set. -/
theorem c3_counterexample :
    ManagerState.network_load kOk stSync (some [dnNine]) = some stAfterLoad ∧
    syncOK stSync ∧ ¬ syncOK stAfterLoad := by
  refine ⟨by decide, ⟨?_, ?_⟩, ?_⟩
  · intro key nn hkey
    simp [stSync, listLookup] at hkey
  · intro key cfg hkey
    simp [stSync, listLookup] at hkey
  · intro hsync
    obtain ⟨hf, -⟩ := hsync
    have hbad := hf "N9" nLoaded (by decide)
    simp [stAfterLoad, listLookup] at hbad

theorem persist_eq (st : ManagerState) (uid : String) (cfg : NetworkConfig) :
    ManagerState.persist_network_config st uid cfg =
      { st with file := some (listInsert (st.file.getD []) uid cfg) } := by
  unfold ManagerState.persist_network_config
  cases hfl : st.file <;> simp [hfl, Option.getD]

theorem syncOK_create_insert (st : ManagerState) (uid : String) (nw : Network)
    (hsync : syncOK st) :
    syncOK (ManagerState.persist_network_config
      { st with network_list := listInsert st.network_list uid nw } uid (configOf nw)) := by
  rw [persist_eq]
  obtain ⟨hf, hb⟩ := hsync
  constructor
  · intro key nn hkey
    simp only [Option.getD] at hkey ⊢
    by_cases hk : key = uid
    · subst hk
      rw [listLookup_listInsert_self] at hkey
      obtain rfl : nw = nn := by simpa using hkey
      rw [listLookup_listInsert_self]
    · rw [listLookup_listInsert_ne _ _ _ _ hk] at hkey
      rw [listLookup_listInsert_ne _ _ _ _ hk]
      exact hf key nn hkey
  · intro key cfg2 hkey
    simp only [Option.getD] at hkey ⊢
    by_cases hk : key = uid
    · subst hk
      rw [listLookup_listInsert_self] at hkey
      obtain rfl : configOf nw = cfg2 := by simpa using hkey
      exact ⟨nw, by rw [listLookup_listInsert_self], rfl⟩
    · rw [listLookup_listInsert_ne _ _ _ _ hk] at hkey
      obtain ⟨n0, hn0, hcfg0⟩ := hb key cfg2 hkey
      refine ⟨n0, ?_, hcfg0⟩
      rw [listLookup_listInsert_ne _ _ _ _ hk]
      exact hn0

theorem network_delete_eq (st : ManagerState) (uid : String) :
    ManagerState.network_delete st uid =
      { network_list := listErase st.network_list uid,
        file := some (listErase (st.file.getD []) uid) } := by
  unfold ManagerState.network_delete
  cases hfl : st.file <;> simp [hfl, Option.getD]

/-- C3 amended: the key-set/field equality between the persistence file
and the in-memory map is preserved by `network_create`, by
`network_delete` (for duplicate-free maps), and by the manager
`endpoint_attach` (its recovery path cannot fire from a synchronized
state); but `network_load` violates it (see the counterexample), so the
invariant does not hold after every externally visible operation. -/
theorem c3_amended (k : Kernel) :
    (∀ st uid blob st', syncOK st →
      ManagerState.network_create k st uid blob = some st' → syncOK st') ∧
    (∀ st uid, syncOK st → keysNodup st.network_list →
      keysNodup (st.file.getD []) → syncOK (ManagerState.network_delete st uid)) ∧
    (∀ st nuid epuid sbox blob res st' tr, syncOK st →
      ManagerState.endpoint_attach k st nuid epuid sbox blob = some (res, st', tr) →
      syncOK st') := by
  refine ⟨?_, ?_, ?_⟩
  · -- network_create preserves the invariant
    intro st uid blob st' hsync hcr
    unfold ManagerState.network_create at hcr
    split at hcr
    · obtain rfl : st = st' := by simpa using hcr
      exact hsync
    · rename_i d p c hparse
      split at hcr
      · exact absurd hcr (by simp)
      · rename_i nw tr hnew
        obtain ⟨hd, hp, hc, -, -, -⟩ := network_new_fields k d p c nw tr hnew
        have hcfg : configOf nw = { device := d, peer := p, canid := c } := by
          simp [configOf, hd, hp, hc]
        dsimp only at hcr
        rw [← hcfg] at hcr
        obtain rfl : ManagerState.persist_network_config
            { st with network_list := listInsert st.network_list uid nw } uid
            (configOf nw) = st' := by simpa using hcr
        exact syncOK_create_insert st uid nw hsync
  · -- network_delete preserves the invariant for duplicate-free maps
    intro st uid hsync hnd hfn
    obtain ⟨hf, hb⟩ := hsync
    rw [network_delete_eq]
    constructor
    · intro key nn hkey
      simp only [Option.getD_some] at hkey ⊢
      by_cases hk : key = uid
      · subst hk
        rw [listLookup_listErase_self _ _ hnd] at hkey
        exact absurd hkey (by simp)
      · rw [listLookup_listErase_ne _ _ _ hk] at hkey
        rw [listLookup_listErase_ne _ _ _ hk]
        exact hf key nn hkey
    · intro key cfg hkey
      simp only [Option.getD_some] at hkey ⊢
      by_cases hk : key = uid
      · subst hk
        rw [listLookup_listErase_self _ _ hfn] at hkey
        exact absurd hkey (by simp)
      · rw [listLookup_listErase_ne _ _ _ hk] at hkey
        obtain ⟨n0, hn0, hcfg0⟩ := hb key cfg hkey
        refine ⟨n0, ?_, hcfg0⟩
        rw [listLookup_listErase_ne _ _ _ hk]
        exact hn0
  · -- manager endpoint_attach preserves the invariant
    intro st nuid epuid sbox blob res st' tr hsync hat
    unfold ManagerState.endpoint_attach at hat
    cases hn : listLookup st.network_list nuid with
    | none =>
      rw [hn] at hat
      dsimp only at hat
      cases hfl : st.file with
      | none =>
        rw [hfl] at hat
        dsimp only at hat
        simp only [Option.some.injEq, Prod.mk.injEq] at hat
        obtain ⟨-, h2, -⟩ := hat
        subst h2
        exact hsync
      | some configs =>
        rw [hfl] at hat
        dsimp only at hat
        cases hcfg : listLookup configs nuid with
        | none =>
          rw [hcfg] at hat
          dsimp only at hat
          simp only [Option.some.injEq, Prod.mk.injEq] at hat
          obtain ⟨-, h2, -⟩ := hat
          subst h2
          exact hsync
        | some cfg =>
          exfalso
          obtain ⟨n0, hn0, -⟩ := hsync.2 nuid cfg (by simp [hfl, Option.getD, hcfg])
          rw [hn] at hn0
          exact absurd hn0 (by simp)
    | some n =>
      rw [hn] at hat
      dsimp only at hat
      rw [hn] at hat
      dsimp only at hat
      cases hep : listLookup n.endpoint_list epuid with
      | some e0 =>
        rw [hep] at hat
        dsimp only at hat
        exact syncOK_attachFinish k st nuid epuid blob [] n res st' tr hsync hn hat
      | none =>
        rw [hep] at hat
        dsimp only at hat
        split at hat
        · exact absurd hat (by simp)
        · rename_i ep tr2 hepnew
          split at hat
          · exact absurd hat (by simp)
          · rename_i n1 tr3 hadd
            obtain ⟨hd, hp, hc, -⟩ := endpoint_add_fields k n ep (n1, tr3) hadd
            have hcfg2 : configOf n1 = configOf n := by
              simp only [configOf, NetworkConfig.mk.injEq]
              exact ⟨hd, hp, hc⟩
            have hsync2 : syncOK { st with
                network_list := listInsert st.network_list nuid n1 } :=
              syncOK_insert_same st nuid n n1 hsync hn hcfg2
            have hn2 : listLookup (listInsert st.network_list nuid n1) nuid = some n1 :=
              listLookup_listInsert_self _ _ _
            exact syncOK_attachFinish k
              { st with network_list := listInsert st.network_list nuid n1 }
              nuid epuid blob ([] ++ tr2 ++ tr3) n1 res st' tr hsync2 hn2 hat

/-- Witness for C3 at a concrete synchronized state and create call. -/
theorem c3_witness :
    ManagerState.network_create kOk stSync "N1" blobW = some stWafter ∧
    syncOK stWafter :=
  ⟨by decide,
   (c3_amended kOk).1 stSync "N1" blobW stWafter
     ⟨fun key nn hkey => by simp [stSync, listLookup] at hkey,
      fun key cfg hkey => by simp [stSync, listLookup] at hkey⟩
     (by decide)⟩
